import Mathlib

/-!
Shallow embedding of the report-derivation and invoice-normalization core of
the AI-accounting application (`components/MassUploadModal.tsx`, the reports
page and `services/geminiService.ts`), together with proofs settling the
frozen claims about its specification.

Amounts, quantities and tax rates are JavaScript numbers in the source; they
are modelled as rationals (ℚ), which captures the exact arithmetic the
specification's equalities talk about.  JavaScript objects used as
string-keyed dictionaries are modelled as insertion-ordered association
lists.  Optional string fields are modelled as strings, with the empty
string as the falsy/missing case the source tests for.
-/

/-- Models `String.prototype.toLowerCase` (over the ASCII range relevant to
this application) as a structurally recursive map over the characters. -/
def jsToLower (s : String) : String := ⟨s.data.map Char.toLower⟩

/-- A ledger master record.  `state` and `gstin` are optional strings in the
source; a missing value is modelled as the empty string, which is exactly the
falsy case the source tests for. -/
structure Ledger where
  name : String
  state : String
  registrationType : String
  gstin : String
deriving DecidableEq, Repr

/-- A stock item master record (fields used by the embedded code). -/
structure StockItem where
  name : String
  gstRate : ℚ
deriving DecidableEq, Repr

/-- One line item of externally extracted invoice data. -/
structure ExtractedLineItem where
  itemDescription : String
  hsnCode : String
  quantity : ℚ
  rate : ℚ
deriving DecidableEq, Repr

/-- Externally extracted invoice data (untrusted input to the save path). -/
structure ExtractedInvoiceData where
  sellerName : String
  invoiceNumber : String
  invoiceDate : String
  subtotal : ℚ
  cgstAmount : ℚ
  sgstAmount : ℚ
  totalAmount : ℚ
  lineItems : List ExtractedLineItem
deriving DecidableEq, Repr

instance : Inhabited ExtractedInvoiceData :=
  ⟨⟨"", "", "", 0, 0, 0, 0, []⟩⟩

/-- A line item of a Purchase/Sales voucher. -/
structure VoucherItem where
  name : String
  qty : ℚ
  rate : ℚ
  taxableAmount : ℚ
  cgstAmount : ℚ
  sgstAmount : ℚ
  igstAmount : ℚ
  totalAmount : ℚ
deriving DecidableEq, Repr

/-- Fields of a Purchase or Sales voucher. -/
structure SalesPurchaseFields where
  id : String
  date : String
  invoiceNo : String
  party : String
  isInterState : Bool
  items : List VoucherItem
  totalTaxableAmount : ℚ
  totalCgst : ℚ
  totalSgst : ℚ
  totalIgst : ℚ
  total : ℚ
  narration : String
deriving DecidableEq, Repr

/-- One entry of a Journal voucher. -/
structure JournalEntry where
  ledger : String
  debit : ℚ
  credit : ℚ
deriving DecidableEq, Repr

/-- The closed set of voucher variants (`types.ts`), restricted to the fields
the report engine reads. -/
inductive Voucher where
  | purchase (v : SalesPurchaseFields)
  | sales (v : SalesPurchaseFields)
  | payment (party account : String) (amount : ℚ)
  | receipt (party account : String) (amount : ℚ)
  | contra (fromAccount toAccount : String) (amount : ℚ)
  | journal (entries : List JournalEntry)
deriving DecidableEq, Repr

/-! ### Shared name-matching and tax-rate resolution -/

/-- Inter-state determination shared by `handleSave` and
`recalculateInvoiceData` in `MassUploadModal.tsx` (lines 104-107 and
166-169): find the party ledger by case-insensitive name match; if both its
state and the company state are present (non-empty), compare them
case-insensitively, else default to intra-state. -/
def isInterStateFor (ledgers : List Ledger) (companyState sellerName : String) : Bool :=
  match ledgers.find? (fun l => jsToLower l.name == jsToLower sellerName) with
  | some l =>
      if l.state != "" && companyState != "" then
        jsToLower l.state != jsToLower companyState
      else false
  | none => false

/-- GST rate resolution on the save path (`MassUploadModal.tsx` lines
172-173): case-insensitive description lookup, then `stockItem?.gstRate || 18`.
The JavaScript `||` falls through to 18 both when no stock item matches and
when the matched rate is 0 (falsy). -/
def saveGstRate (stockItems : List StockItem) (desc : String) : ℚ :=
  match stockItems.find? (fun si => jsToLower si.name == jsToLower desc) with
  | some si => if si.gstRate == 0 then 18 else si.gstRate
  | none => 18

/-- GST rate resolution on the interactive recalculation path
(`MassUploadModal.tsx` lines 114-115): same lookup, but
`stockItem?.gstRate || 0`. -/
def recalcGstRate (stockItems : List StockItem) (desc : String) : ℚ :=
  match stockItems.find? (fun si => jsToLower si.name == jsToLower desc) with
  | some si => if si.gstRate == 0 then 0 else si.gstRate
  | none => 0

/-! ### Date handling on the save path

`handleSave` computes
`new Date(data.invoiceDate).toISOString().split('T')[0] || new Date().toISOString().split('T')[0]`.
The JavaScript `Date` constructor and `toISOString` are platform builtins;
they are modelled below for the string shapes this application feeds them: an
ISO `YYYY-MM-DD` string parses to that calendar date, any other string gives
an invalid date, and `toISOString` on an invalid date throws a `RangeError`
(modelled as `Except.error`). -/

/-- Decidable equality of `Except` results, used to evaluate the embedded
throwing computations on concrete inputs. -/
instance {ε α : Type} [DecidableEq ε] [DecidableEq α] : DecidableEq (Except ε α) :=
  fun a b =>
    match a, b with
    | Except.ok x, Except.ok y => decidable_of_iff (x = y) (by simp)
    | Except.ok _, Except.error _ => isFalse (by simp)
    | Except.error _, Except.ok _ => isFalse (by simp)
    | Except.error e, Except.error e2 => decidable_of_iff (e = e2) (by simp)

/-- A calendar date as carried by a valid JavaScript `Date`. -/
structure JsDate where
  year : Nat
  month : Nat
  day : Nat
deriving DecidableEq, Repr

/-- Splits a character list on `-`, modelling `String.split` for the date
parser below. -/
def splitOnDash : List Char → List (List Char)
  | [] => [[]]
  | c :: rest =>
    let r := splitOnDash rest
    if c = '-' then [] :: r
    else
      match r with
      | [] => [[c]]
      | g :: gs => (c :: g) :: gs

/-- True when every character is an ASCII digit. -/
def allDigits (l : List Char) : Bool := l.all (fun c => '0' ≤ c && c ≤ '9')

/-- Numeric value of a digit string. -/
def natOfDigits (l : List Char) : Nat := l.foldl (fun acc c => acc * 10 + (c.toNat - 48)) 0

/-- Models the JavaScript `Date` constructor on the strings this application
feeds it: an ISO `YYYY-MM-DD` string with a plausible month and day parses to
that date; anything else is an invalid date, modelled as `none`. -/
def jsDateParse (s : String) : Option JsDate :=
  match splitOnDash s.data with
  | [y, m, d] =>
    if y.length = 4 ∧ m.length = 2 ∧ d.length = 2 ∧ allDigits y ∧ allDigits m ∧ allDigits d then
      let mn := natOfDigits m
      let dn := natOfDigits d
      if 1 ≤ mn ∧ mn ≤ 12 ∧ 1 ≤ dn ∧ dn ≤ 31 then some ⟨natOfDigits y, mn, dn⟩ else none
    else none
  | _ => none

/-- The ASCII digit character for `n % 10`. -/
def digitChar (n : Nat) : Char := Char.ofNat (48 + n % 10)

/-- Two-digit zero-padded decimal rendering. -/
def pad2 (n : Nat) : String := ⟨[digitChar (n / 10), digitChar n]⟩

/-- Four-digit zero-padded decimal rendering. -/
def pad4 (n : Nat) : String := ⟨[digitChar (n / 1000), digitChar (n / 100), digitChar (n / 10), digitChar n]⟩

/-- The ISO rendering of a valid date (midnight UTC, as produced for the
date-only values this application constructs). -/
def isoOfDate (d : JsDate) : String :=
  pad4 d.year ++ "-" ++ pad2 d.month ++ "-" ++ pad2 d.day ++ "T00:00:00.000Z"

/-- `Date.prototype.toISOString`: renders a valid date, throws a `RangeError`
on an invalid date. -/
def dateToISOString : Option JsDate → Except String String
  | none => Except.error "RangeError: Invalid time value"
  | some d => Except.ok (isoOfDate d)

/-- The prefix of a string before the first `T`, modelling
`s.split('T')[0]`. -/
def takeBeforeT : List Char → List Char
  | [] => []
  | c :: rest => if c = 'T' then [] else c :: takeBeforeT rest

/-- Models `s.split('T')[0]`. -/
def splitTHead (s : String) : String := ⟨takeBeforeT s.data⟩

/-- The voucher date expression of `handleSave` (`MassUploadModal.tsx` line
189): `new Date(data.invoiceDate).toISOString().split('T')[0] || <today>`.
The fallback to the current date (`now`) is only consulted when the left
operand is falsy, which an ISO prefix never is; when the invoice date fails
to parse, `toISOString` throws before the fallback is reached. -/
def voucherDateString (invoiceDate : String) (now : JsDate) : Except String String :=
  match dateToISOString (jsDateParse invoiceDate) with
  | Except.error e => Except.error e
  | Except.ok iso =>
    let first := splitTHead iso
    Except.ok (if first != "" then first else splitTHead (isoOfDate now))

/-! ### The save path (`handleSave`, `MassUploadModal.tsx` lines 161-199) -/

/-- Construction of one `VoucherItem` inside `handleSave` (lines 171-181). -/
def buildVoucherItem (stockItems : List StockItem) (isInterState : Bool)
    (item : ExtractedLineItem) : VoucherItem :=
  let gstRate := saveGstRate stockItems item.itemDescription
  let taxableAmount := item.quantity * item.rate
  let tax := taxableAmount * (gstRate / 100)
  ⟨item.itemDescription, item.quantity, item.rate, taxableAmount,
   if isInterState then 0 else tax / 2,
   if isInterState then 0 else tax / 2,
   if isInterState then tax else 0,
   taxableAmount + tax⟩

/-- The accumulator of the totals `reduce` in `handleSave` (lines 183-186). -/
structure Totals where
  totalTaxableAmount : ℚ
  totalCgst : ℚ
  totalSgst : ℚ
  totalIgst : ℚ
  grandTotal : ℚ
deriving DecidableEq, Repr

/-- The totals `reduce` of `handleSave` (lines 183-186). -/
def accumTotals (items : List VoucherItem) : Totals :=
  items.foldl (fun acc it =>
    ⟨acc.totalTaxableAmount + it.taxableAmount, acc.totalCgst + it.cgstAmount,
     acc.totalSgst + it.sgstAmount, acc.totalIgst + it.igstAmount,
     acc.grandTotal + it.totalAmount⟩) ⟨0, 0, 0, 0, 0⟩

/-- Normalization of one successfully extracted file into a Purchase voucher
(the body of the `map` in `handleSave`, lines 164-194).  The result is an
`Except` because the date expression can throw. -/
def buildVoucher (ledgers : List Ledger) (stockItems : List StockItem)
    (companyState : String) (now : JsDate) (fileName : String)
    (data : ExtractedInvoiceData) : Except String SalesPurchaseFields :=
  let isInterState := isInterStateFor ledgers companyState data.sellerName
  let items := data.lineItems.map (buildVoucherItem stockItems isInterState)
  let t := accumTotals items
  match voucherDateString data.invoiceDate now with
  | Except.error e => Except.error e
  | Except.ok date =>
    Except.ok ⟨"", date, data.invoiceNumber, data.sellerName, isInterState, items,
      t.totalTaxableAmount, t.totalCgst, t.totalSgst, t.totalIgst, t.grandTotal,
      "Auto-imported from " ++ fileName⟩

/-- Per-file processing status. -/
inductive FileStatus where
  | pending
  | processing
  | success
  | error
deriving DecidableEq, BEq, Repr

/-- A file in the mass-upload queue (fields the embedded code reads). -/
structure MassUploadFile where
  id : String
  fileName : String
  status : FileStatus
  extractedData : Option ExtractedInvoiceData
  error : Option String
deriving DecidableEq, Repr

instance : Inhabited MassUploadFile :=
  ⟨⟨"", "", FileStatus.pending, none, none⟩⟩

/-- Sequential `map` of a throwing body over a list: the first throw aborts,
as a JavaScript `Array.prototype.map` whose callback throws. -/
def exceptMap {α β : Type} (g : α → Except String β) : List α → Except String (List β)
  | [] => Except.ok []
  | a :: l =>
    match g a with
    | Except.error e => Except.error e
    | Except.ok b =>
      match exceptMap g l with
      | Except.error e => Except.error e
      | Except.ok bs => Except.ok (b :: bs)

/-- `handleSave` (lines 161-199): filter the successfully extracted files and
normalize each into a Purchase voucher. -/
def handleSave (ledgers : List Ledger) (stockItems : List StockItem)
    (companyState : String) (now : JsDate) (files : List MassUploadFile) :
    Except String (List SalesPurchaseFields) :=
  exceptMap
    (fun f => buildVoucher ledgers stockItems companyState now f.fileName
      (f.extractedData.getD default))
    (files.filter (fun f => f.status == FileStatus.success && f.extractedData.isSome))

/-! ### Interactive recalculation (`recalculateInvoiceData`, lines 103-132) -/

/-- Accumulator of the `forEach` in `recalculateInvoiceData`. -/
structure RecalcAcc where
  subtotal : ℚ
  cgstAmount : ℚ
  sgstAmount : ℚ
deriving DecidableEq, Repr

/-- One step of the `forEach` in `recalculateInvoiceData` (lines 113-126):
the subtotal always accumulates the taxable amount; intra-state items also
accumulate half the tax into each of CGST and SGST, while inter-state tax is
not stored anywhere. -/
def recalcStep (stockItems : List StockItem) (isInterState : Bool)
    (acc : RecalcAcc) (item : ExtractedLineItem) : RecalcAcc :=
  let gstRate := recalcGstRate stockItems item.itemDescription
  let taxableAmount := item.quantity * item.rate
  let tax := taxableAmount * (gstRate / 100)
  if isInterState then ⟨acc.subtotal + taxableAmount, acc.cgstAmount, acc.sgstAmount⟩
  else ⟨acc.subtotal + taxableAmount, acc.cgstAmount + tax / 2, acc.sgstAmount + tax / 2⟩

/-- `recalculateInvoiceData` (lines 103-132).  Note line 128: the returned
`totalAmount` adds the input record's `cgstAmount`/`sgstAmount` fields, not
the freshly accumulated ones. -/
def recalculateInvoiceData (ledgers : List Ledger) (stockItems : List StockItem)
    (companyState : String) (data : ExtractedInvoiceData) (sellerName : String) :
    ExtractedInvoiceData :=
  let isInterState := isInterStateFor ledgers companyState sellerName
  let acc := data.lineItems.foldl (recalcStep stockItems isInterState) ⟨0, 0, 0⟩
  let totalAmount := acc.subtotal + data.cgstAmount + data.sgstAmount
  ⟨data.sellerName, data.invoiceNumber, data.invoiceDate, acc.subtotal,
   acc.cgstAmount, acc.sgstAmount, totalAmount, data.lineItems⟩

/-! ### Association-list model of JavaScript string-keyed objects -/

/-- Reading `obj[name]`. -/
def lookupEntry {V : Type} (l : List (String × V)) (name : String) : Option V :=
  (l.find? (fun e => e.1 == name)).map (fun e => e.2)

/-- Mutating the value at an existing key in place (`obj[name].f += x`); a
no-op when the key is absent.  The stock aggregators guard every such update
with a presence check, so the no-op branch is exactly the guarded skip; the
trial balance ensures presence before every update (see `ensureLedger`). -/
def updateEntry {V : Type} : List (String × V) → String → (V → V) → List (String × V)
  | [], _, _ => []
  | e :: rest, name, g =>
    if e.1 == name then (e.1, g e.2) :: rest else e :: updateEntry rest name g

/-- Assignment `obj[name] = v`: overwrite in place when present, else append
in insertion order. -/
def setEntry {V : Type} : List (String × V) → String → V → List (String × V)
  | [], name, v => [(name, v)]
  | e :: rest, name, v =>
    if e.1 == name then (e.1, v) :: rest else e :: setEntry rest name v

/-! ### Trial balance (`trialBalanceData`, ReportsPage lines 392-483) -/

/-- Per-ledger running debit/credit totals. -/
structure BalEntry where
  debit : ℚ
  credit : ℚ
deriving DecidableEq, Repr

/-- `ensureLedger` (lines 398-402): lazily create a zero balance for a
non-empty, not-yet-tracked ledger name. -/
def ensureLedger (b : List (String × BalEntry)) (name : String) : List (String × BalEntry) :=
  if name != "" && (lookupEntry b name).isNone then b ++ [(name, ⟨0, 0⟩)] else b

/-- `balances[name].debit += x`. -/
def addDebit (b : List (String × BalEntry)) (name : String) (x : ℚ) : List (String × BalEntry) :=
  updateEntry b name (fun e => ⟨e.debit + x, e.credit⟩)

/-- `balances[name].credit += x`. -/
def addCredit (b : List (String × BalEntry)) (name : String) (x : ℚ) : List (String × BalEntry) :=
  updateEntry b name (fun e => ⟨e.debit, e.credit + x⟩)

/-- Posting of one Journal entry (lines 458-464): the ledger is ensured, and
entries with an empty ledger name are skipped. -/
def postJournalEntry (b : List (String × BalEntry)) (e : JournalEntry) :
    List (String × BalEntry) :=
  let b := ensureLedger b e.ledger
  if e.ledger != "" then addCredit (addDebit b e.ledger e.debit) e.ledger e.credit else b

/-- The per-voucher postings of the trial balance `switch` (lines 410-466). -/
def postVoucher (b : List (String × BalEntry)) (v : Voucher) : List (String × BalEntry) :=
  match v with
  | Voucher.purchase p =>
    let b := ensureLedger b p.party
    let b := ensureLedger b "Purchases"
    let b := ensureLedger b "IGST"
    let b := ensureLedger b "CGST"
    let b := ensureLedger b "SGST"
    let b := addCredit b p.party p.total
    let b := addDebit b "Purchases" p.totalTaxableAmount
    if p.isInterState then addDebit b "IGST" p.totalIgst
    else addDebit (addDebit b "CGST" p.totalCgst) "SGST" p.totalSgst
  | Voucher.sales s =>
    let b := ensureLedger b s.party
    let b := ensureLedger b "Sales"
    let b := ensureLedger b "IGST"
    let b := ensureLedger b "CGST"
    let b := ensureLedger b "SGST"
    let b := addDebit b s.party s.total
    let b := addCredit b "Sales" s.totalTaxableAmount
    if s.isInterState then addCredit b "IGST" s.totalIgst
    else addCredit (addCredit b "CGST" s.totalCgst) "SGST" s.totalSgst
  | Voucher.payment party account amount =>
    let b := ensureLedger b party
    let b := ensureLedger b account
    addCredit (addDebit b party amount) account amount
  | Voucher.receipt party account amount =>
    let b := ensureLedger b party
    let b := ensureLedger b account
    addDebit (addCredit b party amount) account amount
  | Voucher.contra f t amount =>
    let b := ensureLedger b f
    let b := ensureLedger b t
    addDebit (addCredit b f amount) t amount
  | Voucher.journal entries => entries.foldl postJournalEntry b

/-- One row of the trial balance report. -/
structure TBRow where
  ledger : String
  debit : ℚ
  credit : ℚ
deriving DecidableEq, Repr

/-- Netting of one ledger's totals (lines 470-474). -/
def netEntry (e : String × BalEntry) : TBRow :=
  if e.2.credit < e.2.debit then ⟨e.1, e.2.debit - e.2.credit, 0⟩
  else if e.2.debit < e.2.credit then ⟨e.1, 0, e.2.credit - e.2.debit⟩
  else ⟨e.1, 0, 0⟩

/-- `trialBalanceData` (lines 392-483): initialize the known ledgers, post
every voucher, net each ledger, drop zero rows and total the two columns.
Returns the rows together with the (debitTotal, creditTotal) pair. -/
def trialBalanceData (vouchers : List Voucher) (ledgers : List Ledger) :
    List TBRow × ℚ × ℚ :=
  let init := ledgers.foldl (fun b l => ensureLedger b l.name) []
  let balances := vouchers.foldl postVoucher init
  let result := (balances.map netEntry).filter
    (fun r => decide (0 < r.debit) || decide (0 < r.credit))
  let totals := result.foldl (fun acc r => (acc.1 + r.debit, acc.2 + r.credit)) ((0 : ℚ), (0 : ℚ))
  (result, totals)

/-- Non-empty referenced ledger names, the condition under which the posting
loop never reads a property of `undefined` (an empty party/account name is
skipped by `ensureLedger`, and the source would then fault on the
`balances[name]` access that follows). -/
def voucherNamesOk : Voucher → Bool
  | Voucher.purchase p => p.party != ""
  | Voucher.sales s => s.party != ""
  | Voucher.payment party account _ => party != "" && account != ""
  | Voucher.receipt party account _ => party != "" && account != ""
  | Voucher.contra f t _ => f != "" && t != ""
  | Voucher.journal entries => entries.all (fun e => e.ledger != "")

/-- A voucher whose postings balance: for Purchase/Sales, the grand total
equals the taxable amount plus the taxes the trial balance actually posts for
its inter-state flag; for Journal, the entries' debits and credits sum to the
same value; the three two-legged kinds always balance. -/
def voucherBalanced : Voucher → Bool
  | Voucher.purchase p =>
      p.total == p.totalTaxableAmount + (if p.isInterState then p.totalIgst else p.totalCgst + p.totalSgst)
  | Voucher.sales s =>
      s.total == s.totalTaxableAmount + (if s.isInterState then s.totalIgst else s.totalCgst + s.totalSgst)
  | Voucher.payment _ _ _ => true
  | Voucher.receipt _ _ _ => true
  | Voucher.contra _ _ _ => true
  | Voucher.journal entries =>
      (entries.map JournalEntry.debit).sum == (entries.map JournalEntry.credit).sum

/-! ### GSTR-1 classification (`gstr1Data`, ReportsPage lines 512-527) -/

/-- `ledgersByName` (lines 365-370): `reduce` building an object keyed by the
exact ledger name; a later ledger with the same name overwrites an earlier
one. -/
def ledgersByName (ledgers : List Ledger) (name : String) : Option Ledger :=
  ledgers.foldl (fun acc l => fun n => if n == l.name then some l else acc n)
    (fun _ => none) name

/-- Discriminates Sales vouchers (`v.type === 'Sales'`). -/
def isSalesVoucher : Voucher → Bool
  | Voucher.sales _ => true
  | _ => false

/-- The `v.party` read of the GSTR-1 filters.  Only applied to Sales
vouchers; kinds without a party field read as the empty string (the source
would read `undefined`). -/
def voucherPartyName : Voucher → String
  | Voucher.purchase p => p.party
  | Voucher.sales s => s.party
  | Voucher.payment party _ _ => party
  | Voucher.receipt party _ _ => party
  | Voucher.contra _ _ _ => ""
  | Voucher.journal _ => ""

/-- The b2b filter predicate (lines 516-519):
`partyLedger?.registrationType === 'Registered' && partyLedger?.gstin`. -/
def b2bCond (ledgers : List Ledger) (v : Voucher) : Bool :=
  match ledgersByName ledgers (voucherPartyName v) with
  | some l => l.registrationType == "Registered" && l.gstin != ""
  | none => false

/-- The b2c filter predicate (lines 521-524):
`!partyLedger || partyLedger.registrationType !== 'Registered' || !partyLedger.gstin`. -/
def b2cCond (ledgers : List Ledger) (v : Voucher) : Bool :=
  match ledgersByName ledgers (voucherPartyName v) with
  | none => true
  | some l => l.registrationType != "Registered" || l.gstin == ""

/-- `gstr1Data` (lines 512-527): the (b2b, b2c) buckets over the Sales
vouchers. -/
def gstr1Data (vouchers : List Voucher) (ledgers : List Ledger) :
    List Voucher × List Voucher :=
  let salesVouchers := vouchers.filter isSalesVoucher
  (salesVouchers.filter (b2bCond ledgers), salesVouchers.filter (b2cCond ledgers))

/-- The b2b membership condition in the words of the amended claim: some
master ledger's name equals the party name exactly (case-sensitively), the
last such ledger in the list providing the record, and that record is
Registered with a non-empty gstin. -/
def b2bExactSpec (ledgers : List Ledger) (party : String) : Bool :=
  match ledgers.reverse.find? (fun l => l.name == party) with
  | some l => l.registrationType == "Registered" && l.gstin != ""
  | none => false

/-! ### Stock summary and valuation (ReportsPage lines 485-510 and 529-577) -/

/-- Per-item inward/outward quantities. -/
structure StockMovement where
  inward : ℚ
  outward : ℚ
deriving DecidableEq, Repr

/-- One row of the stock summary report. -/
structure StockRow where
  name : String
  inward : ℚ
  outward : ℚ
  closing : ℚ
deriving DecidableEq, Repr

/-- Initialization of the summary object (lines 489-491): one zero entry per
master stock item, keyed by the exact name. -/
def stockSummaryInit (stockItems : List StockItem) : List (String × StockMovement) :=
  stockItems.foldl (fun s i => setEntry s i.name ⟨0, 0⟩) []

/-- Guarded `summary[item.name].inward += item.qty` (line 496). -/
def addInward (s : List (String × StockMovement)) (name : String) (q : ℚ) :
    List (String × StockMovement) :=
  updateEntry s name (fun m => ⟨m.inward + q, m.outward⟩)

/-- Guarded `summary[item.name].outward += item.qty` (line 500). -/
def addOutward (s : List (String × StockMovement)) (name : String) (q : ℚ) :
    List (String × StockMovement) :=
  updateEntry s name (fun m => ⟨m.inward, m.outward + q⟩)

/-- The per-voucher step of the stock summary loop (lines 493-503). -/
def stockSummaryStep (s : List (String × StockMovement)) (v : Voucher) :
    List (String × StockMovement) :=
  match v with
  | Voucher.purchase p => p.items.foldl (fun s it => addInward s it.name it.qty) s
  | Voucher.sales sv => sv.items.foldl (fun s it => addOutward s it.name it.qty) s
  | _ => s

/-- `stockSummaryData` (lines 485-510). -/
def stockSummaryData (vouchers : List Voucher) (stockItems : List StockItem) :
    List StockRow :=
  let summary := vouchers.foldl stockSummaryStep (stockSummaryInit stockItems)
  summary.map (fun e => ⟨e.1, e.2.inward, e.2.outward, e.2.inward - e.2.outward⟩)

/-- Per-item valuation accumulators. -/
structure ValuationAcc where
  purchaseQty : ℚ
  purchaseValue : ℚ
  salesQty : ℚ
deriving DecidableEq, Repr

/-- One row of the stock valuation report. -/
structure ValuationRow where
  name : String
  closingQty : ℚ
  avgCost : ℚ
  value : ℚ
deriving DecidableEq, Repr

/-- Initialization of the valuation object (lines 540-546). -/
def stockValuationInit (stockItems : List StockItem) : List (String × ValuationAcc) :=
  stockItems.foldl (fun s i => setEntry s i.name ⟨0, 0, 0⟩) []

/-- The per-voucher step of the valuation loop (lines 548-563). -/
def stockValuationStep (s : List (String × ValuationAcc)) (v : Voucher) :
    List (String × ValuationAcc) :=
  match v with
  | Voucher.purchase p =>
    p.items.foldl (fun s it =>
      updateEntry s it.name (fun a =>
        ⟨a.purchaseQty + it.qty, a.purchaseValue + it.taxableAmount, a.salesQty⟩)) s
  | Voucher.sales sv =>
    sv.items.foldl (fun s it =>
      updateEntry s it.name (fun a =>
        ⟨a.purchaseQty, a.purchaseValue, a.salesQty + it.qty⟩)) s
  | _ => s

/-- `stockValuationData` (lines 529-577). -/
def stockValuationData (vouchers : List Voucher) (stockItems : List StockItem) :
    List ValuationRow :=
  let valuation := vouchers.foldl stockValuationStep (stockValuationInit stockItems)
  valuation.map (fun e =>
    let closingQty := e.2.purchaseQty - e.2.salesQty
    let avgCost := if 0 < e.2.purchaseQty then e.2.purchaseValue / e.2.purchaseQty else 0
    ⟨e.1, closingQty, avgCost, closingQty * avgCost⟩)

/-- The line items of a Purchase voucher (empty for other kinds); reference
function for stating what the stock aggregators accumulate. -/
def purchaseItemsOf : Voucher → List VoucherItem
  | Voucher.purchase p => p.items
  | _ => []

/-- The line items of a Sales voucher (empty for other kinds). -/
def salesItemsOf : Voucher → List VoucherItem
  | Voucher.sales s => s.items
  | _ => []

/-- Total quantity of Purchase line items whose name equals `n` exactly. -/
def inwardQty (vouchers : List Voucher) (n : String) : ℚ :=
  (((vouchers.map purchaseItemsOf).flatten.filter (fun it => it.name == n)).map VoucherItem.qty).sum

/-- Total quantity of Sales line items whose name equals `n` exactly. -/
def outwardQty (vouchers : List Voucher) (n : String) : ℚ :=
  (((vouchers.map salesItemsOf).flatten.filter (fun it => it.name == n)).map VoucherItem.qty).sum

/-- Total taxable amount of Purchase line items whose name equals `n`
exactly. -/
def purchaseValueQ (vouchers : List Voucher) (n : String) : ℚ :=
  (((vouchers.map purchaseItemsOf).flatten.filter (fun it => it.name == n)).map VoucherItem.taxableAmount).sum

/-! ### Extraction retry client (`geminiService.ts` lines 71-120) and the
processing loop (`MassUploadModal.tsx` lines 86-101) -/

/-- Result of a retry run: the outcome, the backoff delays awaited between
attempts (in milliseconds), and how many attempts were made. -/
structure RetryResult (α : Type) where
  result : Except String α
  sleeps : List Nat
  attemptsMade : Nat
deriving Repr

/-- The `while (attempt < maxRetries)` loop of `extractInvoiceDataWithRetry`,
written structurally on the fuel `maxRetries - attempt` (so the fuel-exhausted
case is exactly the source's unreachable final
`throw new Error('Should not be reached')`).  `attempts n` is the outcome of
the n-th call to the external service for this file. -/
def retryAux {α : Type} (attempts : Nat → Except String α) (maxRetries : Nat) :
    Nat → Nat → Nat → List Nat → Nat → RetryResult α
  | 0, _, _, sleeps, made => ⟨Except.error "Should not be reached", sleeps, made⟩
  | fuel + 1, attempt, delay, sleeps, made =>
    match attempts attempt with
    | Except.ok d => ⟨Except.ok d, sleeps, made + 1⟩
    | Except.error _ =>
      if maxRetries ≤ attempt + 1 then
        ⟨Except.error "Failed to extract invoice data after multiple retries.", sleeps, made + 1⟩
      else retryAux attempts maxRetries fuel (attempt + 1) (delay * 2) (sleeps ++ [delay]) (made + 1)

/-- `extractInvoiceDataWithRetry` (`geminiService.ts` lines 71-120), with the
source's default arguments `maxRetries = 3`, `initialDelay = 1000` passed
explicitly by the caller model. -/
def extractInvoiceDataWithRetry {α : Type} (attempts : Nat → Except String α)
    (maxRetries initialDelay : Nat) : RetryResult α :=
  retryAux attempts maxRetries maxRetries 0 initialDelay [] 0

/-- The per-file outcome application of `startProcessing`
(`MassUploadModal.tsx` lines 90-97): success stores the data, failure stores
the thrown error's message. -/
def runExtraction (attempts : Nat → Except String ExtractedInvoiceData)
    (f : MassUploadFile) : MassUploadFile :=
  match (extractInvoiceDataWithRetry attempts 3 1000).result with
  | Except.ok d => ⟨f.id, f.fileName, FileStatus.success, some d, f.error⟩
  | Except.error msg => ⟨f.id, f.fileName, FileStatus.error, f.extractedData, some msg⟩

/-- `startProcessing` (lines 86-101): every pending file is processed with
its own retried extraction call; failures are recorded per file and the loop
continues with the remaining files. -/
def startProcessing (oracle : MassUploadFile → Nat → Except String ExtractedInvoiceData)
    (files : List MassUploadFile) : List MassUploadFile :=
  files.map (fun f =>
    if f.status == FileStatus.pending then runExtraction (oracle f) f else f)

/-! ### Reference sums used in theorem statements -/

/-- Sum of `quantity * rate` over extracted line items (the recomputed
subtotal). -/
def lineItemsSubtotal (items : List ExtractedLineItem) : ℚ :=
  (items.map (fun it => it.quantity * it.rate)).sum

/-- Sum of half the recomputed per-item tax over extracted line items, at the
recalculation path's tax rates. -/
def lineItemsHalfTax (stockItems : List StockItem) (items : List ExtractedLineItem) : ℚ :=
  (items.map (fun it =>
    it.quantity * it.rate * (recalcGstRate stockItems it.itemDescription / 100) / 2)).sum

/-- Total quantity of the items of one voucher whose name equals `m`
exactly. -/
def itemsQtySum (its : List VoucherItem) (m : String) : ℚ :=
  ((its.filter (fun it => it.name == m)).map VoucherItem.qty).sum

/-- Total taxable amount of the items of one voucher whose name equals `m`
exactly. -/
def itemsTaxableSum (its : List VoucherItem) (m : String) : ℚ :=
  ((its.filter (fun it => it.name == m)).map VoucherItem.taxableAmount).sum

/-- Sum of the running debit column of a balances object. -/
def sumDebits (b : List (String × BalEntry)) : ℚ := (b.map (fun e => e.2.debit)).sum

/-- Sum of the running credit column of a balances object. -/
def sumCredits (b : List (String × BalEntry)) : ℚ := (b.map (fun e => e.2.credit)).sum

/-- Total debit amount a voucher posts into the trial balance (reference
function for the closure proof). -/
def postedDebits : Voucher → ℚ
  | Voucher.purchase p =>
      p.totalTaxableAmount + (if p.isInterState then p.totalIgst else p.totalCgst + p.totalSgst)
  | Voucher.sales s => s.total
  | Voucher.payment _ _ a => a
  | Voucher.receipt _ _ a => a
  | Voucher.contra _ _ a => a
  | Voucher.journal es => (es.map JournalEntry.debit).sum

/-- Total credit amount a voucher posts into the trial balance. -/
def postedCredits : Voucher → ℚ
  | Voucher.purchase p => p.total
  | Voucher.sales s =>
      s.totalTaxableAmount + (if s.isInterState then s.totalIgst else s.totalCgst + s.totalSgst)
  | Voucher.payment _ _ a => a
  | Voucher.receipt _ _ a => a
  | Voucher.contra _ _ a => a
  | Voucher.journal es => (es.map JournalEntry.credit).sum

/-! ## Theorems -/

/-! ### Tax split on the save path (claims C3 and C5) -/

theorem buildVoucherItem_fields (stockItems : List StockItem) (inter : Bool)
    (item : ExtractedLineItem) :
    buildVoucherItem stockItems inter item =
      ⟨item.itemDescription, item.quantity, item.rate, item.quantity * item.rate,
       if inter then 0 else item.quantity * item.rate * (saveGstRate stockItems item.itemDescription / 100) / 2,
       if inter then 0 else item.quantity * item.rate * (saveGstRate stockItems item.itemDescription / 100) / 2,
       if inter then item.quantity * item.rate * (saveGstRate stockItems item.itemDescription / 100) else 0,
       item.quantity * item.rate + item.quantity * item.rate * (saveGstRate stockItems item.itemDescription / 100)⟩ := by
  simp [buildVoucherItem]

/-- C3 (amended): each voucher item built on the save path splits its tax
`tax = taxableAmount * gstRate / 100` as IGST in full when inter-state and as
two exactly equal CGST/SGST halves when intra-state, the other group being
zero; and whenever the resolved rate and the taxable amount are both
non-zero, exactly one of the two groups is non-zero. -/
theorem voucherItem_tax_split (stockItems : List StockItem) (inter : Bool)
    (item : ExtractedLineItem) :
    (buildVoucherItem stockItems inter item).cgstAmount
        = (buildVoucherItem stockItems inter item).sgstAmount ∧
    (inter = true →
      (buildVoucherItem stockItems inter item).igstAmount
          = item.quantity * item.rate * (saveGstRate stockItems item.itemDescription / 100) ∧
      (buildVoucherItem stockItems inter item).cgstAmount = 0 ∧
      (buildVoucherItem stockItems inter item).sgstAmount = 0) ∧
    (inter = false →
      (buildVoucherItem stockItems inter item).cgstAmount
          = item.quantity * item.rate * (saveGstRate stockItems item.itemDescription / 100) / 2 ∧
      (buildVoucherItem stockItems inter item).sgstAmount
          = item.quantity * item.rate * (saveGstRate stockItems item.itemDescription / 100) / 2 ∧
      (buildVoucherItem stockItems inter item).igstAmount = 0) ∧
    (saveGstRate stockItems item.itemDescription ≠ 0 →
      item.quantity * item.rate ≠ 0 →
      ((buildVoucherItem stockItems inter item).igstAmount ≠ 0 ∧
       (buildVoucherItem stockItems inter item).cgstAmount = 0 ∧
       (buildVoucherItem stockItems inter item).sgstAmount = 0) ∨
      ((buildVoucherItem stockItems inter item).cgstAmount ≠ 0 ∧
       (buildVoucherItem stockItems inter item).sgstAmount ≠ 0 ∧
       (buildVoucherItem stockItems inter item).igstAmount = 0)) := by
  rw [buildVoucherItem_fields]
  cases inter with
  | false =>
    refine ⟨rfl, by simp, fun _ => ⟨rfl, rfl, rfl⟩, fun hr ht => Or.inr ⟨?_, ?_, rfl⟩⟩ <;>
      { simp only
        exact div_ne_zero (mul_ne_zero ht (div_ne_zero hr (by norm_num))) (by norm_num) }
  | true =>
    refine ⟨rfl, fun _ => ⟨rfl, rfl, rfl⟩, by simp, fun hr ht => Or.inl ⟨?_, rfl, rfl⟩⟩
    simp only
    exact mul_ne_zero ht (div_ne_zero hr (by norm_num))

theorem voucherItem_tax_split_demo :
    ((buildVoucherItem [⟨"w", 18⟩] false ⟨"w", "", 2, 100⟩).igstAmount ≠ 0 ∧
     (buildVoucherItem [⟨"w", 18⟩] false ⟨"w", "", 2, 100⟩).cgstAmount = 0 ∧
     (buildVoucherItem [⟨"w", 18⟩] false ⟨"w", "", 2, 100⟩).sgstAmount = 0) ∨
    ((buildVoucherItem [⟨"w", 18⟩] false ⟨"w", "", 2, 100⟩).cgstAmount ≠ 0 ∧
     (buildVoucherItem [⟨"w", 18⟩] false ⟨"w", "", 2, 100⟩).sgstAmount ≠ 0 ∧
     (buildVoucherItem [⟨"w", 18⟩] false ⟨"w", "", 2, 100⟩).igstAmount = 0) :=
  (voucherItem_tax_split [⟨"w", 18⟩] false ⟨"w", "", 2, 100⟩).2.2.2
    (by decide) (by norm_num)

/-- C3 (counterexample to the claim as stated): with a positive resolved rate
(the 18 fallback) but a zero quantity, both tax groups of the built item are
zero, so it is false that "when rate > 0 exactly one of the two groups is
non-zero". -/
theorem voucherItem_zero_qty_breaks_exclusivity :
    saveGstRate [] "x" ≠ 0 ∧
    (buildVoucherItem [] false ⟨"x", "", 0, 5⟩).cgstAmount = 0 ∧
    (buildVoucherItem [] false ⟨"x", "", 0, 5⟩).sgstAmount = 0 ∧
    (buildVoucherItem [] false ⟨"x", "", 0, 5⟩).igstAmount = 0 := by
  refine ⟨by decide, ?_, ?_, ?_⟩ <;> norm_num [buildVoucherItem, saveGstRate]

/-- C5 (counterexample to the claim as stated): a stock item matched
case-insensitively whose recorded rate is 0 does not keep its recorded rate
on the save path — the falsy-rate fallback kicks in and 18 is used. -/
theorem saveGstRate_overrides_zero_rate :
    ([⟨"widget", (0 : ℚ)⟩] : List StockItem).find?
        (fun si => jsToLower si.name == jsToLower "Widget") = some ⟨"widget", 0⟩ ∧
    saveGstRate [⟨"widget", 0⟩] "Widget" = 18 ∧ (18 : ℚ) ≠ (0 : ℚ) := by
  refine ⟨by decide, by decide, by norm_num⟩

/-- C5 (amended): the save path uses the case-insensitively matched stock
item's rate when that rate is non-zero and falls back to 18 when the item is
unmatched or its recorded rate is 0 (falsy); the recalculation path uses the
matched non-zero rate and falls back to 0 in the same two cases. -/
theorem gstRate_fallback_asymmetry (stockItems : List StockItem) (desc : String) :
    (stockItems.find? (fun si => jsToLower si.name == jsToLower desc) = none →
      saveGstRate stockItems desc = 18 ∧ recalcGstRate stockItems desc = 0) ∧
    (∀ si, stockItems.find? (fun si => jsToLower si.name == jsToLower desc) = some si →
      si.gstRate ≠ 0 →
      saveGstRate stockItems desc = si.gstRate ∧ recalcGstRate stockItems desc = si.gstRate) ∧
    (∀ si, stockItems.find? (fun si => jsToLower si.name == jsToLower desc) = some si →
      si.gstRate = 0 →
      saveGstRate stockItems desc = 18 ∧ recalcGstRate stockItems desc = 0) := by
  refine ⟨fun h => ?_, fun si h hr => ?_, fun si h hr => ?_⟩
  · simp [saveGstRate, recalcGstRate, h]
  · simp [saveGstRate, recalcGstRate, h, hr]
  · simp [saveGstRate, recalcGstRate, h, hr]

theorem gstRate_fallback_asymmetry_demo :
    saveGstRate [⟨"widget", 0⟩] "widget" = 18 ∧ recalcGstRate [⟨"widget", 0⟩] "widget" = 0 :=
  (gstRate_fallback_asymmetry [⟨"widget", 0⟩] "widget").2.2 ⟨"widget", 0⟩ (by decide) rfl

/-! ### Interactive recalculation (claim C9) -/

theorem recalcStep_foldl (stockItems : List StockItem) (inter : Bool)
    (items : List ExtractedLineItem) (acc : RecalcAcc) :
    items.foldl (recalcStep stockItems inter) acc =
      ⟨acc.subtotal + lineItemsSubtotal items,
       acc.cgstAmount + (if inter then 0 else lineItemsHalfTax stockItems items),
       acc.sgstAmount + (if inter then 0 else lineItemsHalfTax stockItems items)⟩ := by
  induction items generalizing acc with
  | nil => simp [lineItemsSubtotal, lineItemsHalfTax]
  | cons it rest ih =>
    cases inter <;>
      simp [recalcStep, ih, lineItemsSubtotal, lineItemsHalfTax, add_assoc]

/-- C9 (confirmed): `recalculateInvoiceData` returns the freshly recomputed
subtotal, but its `totalAmount` adds the input record's pre-recomputation
`cgstAmount` and `sgstAmount` fields to that subtotal (not the values it just
recomputed); and when the party is inter-state the recomputed line-item tax
is excluded entirely — the returned `cgstAmount` and `sgstAmount` are 0 and
the total carries no IGST term. -/
theorem recalculate_total_uses_stale_tax (ledgers : List Ledger)
    (stockItems : List StockItem) (companyState : String)
    (data : ExtractedInvoiceData) (sellerName : String) :
    (recalculateInvoiceData ledgers stockItems companyState data sellerName).subtotal
        = lineItemsSubtotal data.lineItems ∧
    (recalculateInvoiceData ledgers stockItems companyState data sellerName).totalAmount
        = lineItemsSubtotal data.lineItems + data.cgstAmount + data.sgstAmount ∧
    (recalculateInvoiceData ledgers stockItems companyState data sellerName).cgstAmount
        = (if isInterStateFor ledgers companyState sellerName then 0
           else lineItemsHalfTax stockItems data.lineItems) ∧
    (recalculateInvoiceData ledgers stockItems companyState data sellerName).sgstAmount
        = (if isInterStateFor ledgers companyState sellerName then 0
           else lineItemsHalfTax stockItems data.lineItems) := by
  simp [recalculateInvoiceData, recalcStep_foldl]

/-! ### The save path never-raises claim (C2) and total closure (C4) -/

/-- C2 (code bug): the save path is not total — on an invoice date string
that fails to parse, `new Date(...).toISOString()` throws a `RangeError`
before the `|| <today>` fallback is ever consulted, so `handleSave` raises
instead of falling back to the current date. -/
theorem handleSave_raises_on_unparseable_date :
    handleSave [] [] "" ⟨2024, 1, 1⟩
      [⟨"f1", "inv.png", FileStatus.success,
        some ⟨"", "", "not-a-date", 0, 0, 0, 0, []⟩, none⟩]
      = Except.error "RangeError: Invalid time value" := by
  decide

theorem totalsFoldl (items : List VoucherItem) (acc : Totals) :
    items.foldl (fun acc it =>
      ⟨acc.totalTaxableAmount + it.taxableAmount, acc.totalCgst + it.cgstAmount,
       acc.totalSgst + it.sgstAmount, acc.totalIgst + it.igstAmount,
       acc.grandTotal + it.totalAmount⟩) acc =
      ⟨acc.totalTaxableAmount + (items.map VoucherItem.taxableAmount).sum,
       acc.totalCgst + (items.map VoucherItem.cgstAmount).sum,
       acc.totalSgst + (items.map VoucherItem.sgstAmount).sum,
       acc.totalIgst + (items.map VoucherItem.igstAmount).sum,
       acc.grandTotal + (items.map VoucherItem.totalAmount).sum⟩ := by
  induction items generalizing acc with
  | nil => simp
  | cons it rest ih => simp [ih, add_assoc]

theorem accumTotals_eq (items : List VoucherItem) :
    accumTotals items =
      ⟨(items.map VoucherItem.taxableAmount).sum, (items.map VoucherItem.cgstAmount).sum,
       (items.map VoucherItem.sgstAmount).sum, (items.map VoucherItem.igstAmount).sum,
       (items.map VoucherItem.totalAmount).sum⟩ := by
  rw [accumTotals, totalsFoldl]
  simp

theorem buildVoucherItem_total_closure (stockItems : List StockItem) (inter : Bool)
    (item : ExtractedLineItem) :
    (buildVoucherItem stockItems inter item).totalAmount =
      (buildVoucherItem stockItems inter item).taxableAmount +
      (buildVoucherItem stockItems inter item).cgstAmount +
      (buildVoucherItem stockItems inter item).sgstAmount +
      (buildVoucherItem stockItems inter item).igstAmount := by
  rw [buildVoucherItem_fields]
  cases inter
  · simp only [Bool.false_eq_true, if_false]
    ring
  · simp only [if_true]
    ring

theorem builtItems_sum_total (stockItems : List StockItem) (inter : Bool)
    (items : List ExtractedLineItem) :
    ((items.map (buildVoucherItem stockItems inter)).map VoucherItem.totalAmount).sum =
      ((items.map (buildVoucherItem stockItems inter)).map VoucherItem.taxableAmount).sum +
      ((items.map (buildVoucherItem stockItems inter)).map VoucherItem.cgstAmount).sum +
      ((items.map (buildVoucherItem stockItems inter)).map VoucherItem.sgstAmount).sum +
      ((items.map (buildVoucherItem stockItems inter)).map VoucherItem.igstAmount).sum := by
  induction items with
  | nil => simp
  | cons it rest ih =>
    simp only [List.map_cons, List.sum_cons, ih, buildVoucherItem_total_closure]
    ring

theorem exceptMap_ok_mem {α β : Type} (g : α → Except String β) (l : List α)
    (bs : List β) (b : β) (h : exceptMap g l = Except.ok bs) (hb : b ∈ bs) :
    ∃ a, a ∈ l ∧ g a = Except.ok b := by
  induction l generalizing bs with
  | nil =>
    rw [exceptMap] at h
    cases h
    cases hb
  | cons a rest ih =>
    rw [exceptMap] at h
    cases hga : g a with
    | error e => rw [hga] at h; cases h
    | ok b0 =>
      rw [hga] at h
      cases hrest : exceptMap g rest with
      | error e => rw [hrest] at h; cases h
      | ok bs0 =>
        rw [hrest] at h
        cases h
        rcases List.mem_cons.mp hb with hb0 | hbs
        · exact ⟨a, List.mem_cons_self a rest, hb0 ▸ hga⟩
        · obtain ⟨a1, ha1, hga1⟩ := ih bs0 hrest hbs
          exact ⟨a1, List.mem_cons_of_mem a ha1, hga1⟩

theorem buildVoucher_ok (ledgers : List Ledger) (stockItems : List StockItem)
    (companyState : String) (now : JsDate) (fileName : String)
    (data : ExtractedInvoiceData) (v : SalesPurchaseFields)
    (h : buildVoucher ledgers stockItems companyState now fileName data = Except.ok v) :
    v.items = data.lineItems.map
      (buildVoucherItem stockItems (isInterStateFor ledgers companyState data.sellerName)) ∧
    v.totalTaxableAmount = (v.items.map VoucherItem.taxableAmount).sum ∧
    v.totalCgst = (v.items.map VoucherItem.cgstAmount).sum ∧
    v.totalSgst = (v.items.map VoucherItem.sgstAmount).sum ∧
    v.totalIgst = (v.items.map VoucherItem.igstAmount).sum ∧
    v.total = (v.items.map VoucherItem.totalAmount).sum := by
  rw [buildVoucher] at h
  cases hd : voucherDateString data.invoiceDate now with
  | error e => rw [hd] at h; cases h
  | ok date =>
    rw [hd] at h
    cases h
    simp [accumTotals_eq]

/-- C4 (confirmed): every voucher produced by the save path satisfies
`total = totalTaxableAmount + totalCgst + totalSgst + totalIgst`, where each
of the four voucher-level totals is the sum of the corresponding item-level
field over the voucher's items. -/
theorem handleSave_voucher_total_closure (ledgers : List Ledger)
    (stockItems : List StockItem) (companyState : String) (now : JsDate)
    (files : List MassUploadFile) (vs : List SalesPurchaseFields)
    (v : SalesPurchaseFields)
    (h : handleSave ledgers stockItems companyState now files = Except.ok vs)
    (hv : v ∈ vs) :
    v.total = v.totalTaxableAmount + v.totalCgst + v.totalSgst + v.totalIgst ∧
    v.totalTaxableAmount = (v.items.map VoucherItem.taxableAmount).sum ∧
    v.totalCgst = (v.items.map VoucherItem.cgstAmount).sum ∧
    v.totalSgst = (v.items.map VoucherItem.sgstAmount).sum ∧
    v.totalIgst = (v.items.map VoucherItem.igstAmount).sum := by
  obtain ⟨f, _, hf⟩ := exceptMap_ok_mem _ _ _ _ h hv
  obtain ⟨hitems, h1, h2, h3, h4, h5⟩ := buildVoucher_ok _ _ _ _ _ _ _ hf
  refine ⟨?_, h1, h2, h3, h4⟩
  rw [h5, h1, h2, h3, h4, hitems]
  exact builtItems_sum_total stockItems _ _

theorem handleSave_voucher_total_closure_demo :
    (⟨"", "2024-01-05", "", "", false, [], 0, 0, 0, 0, 0,
      "Auto-imported from inv.png"⟩ : SalesPurchaseFields).total =
      (⟨"", "2024-01-05", "", "", false, [], 0, 0, 0, 0, 0,
        "Auto-imported from inv.png"⟩ : SalesPurchaseFields).totalTaxableAmount +
      (⟨"", "2024-01-05", "", "", false, [], 0, 0, 0, 0, 0,
        "Auto-imported from inv.png"⟩ : SalesPurchaseFields).totalCgst +
      (⟨"", "2024-01-05", "", "", false, [], 0, 0, 0, 0, 0,
        "Auto-imported from inv.png"⟩ : SalesPurchaseFields).totalSgst +
      (⟨"", "2024-01-05", "", "", false, [], 0, 0, 0, 0, 0,
        "Auto-imported from inv.png"⟩ : SalesPurchaseFields).totalIgst :=
  (handleSave_voucher_total_closure [] [] "" ⟨2024, 1, 1⟩
    [⟨"f1", "inv.png", FileStatus.success, some ⟨"", "", "2024-01-05", 0, 0, 0, 0, []⟩, none⟩]
    [⟨"", "2024-01-05", "", "", false, [], 0, 0, 0, 0, 0, "Auto-imported from inv.png"⟩]
    ⟨"", "2024-01-05", "", "", false, [], 0, 0, 0, 0, 0, "Auto-imported from inv.png"⟩
    (by decide) (by decide)).1

/-! ### GSTR-1 classification (claims C6 and C7) -/

theorem length_filter_partition {α : Type} (p : α → Bool) (l : List α) :
    (l.filter p).length + (l.filter (fun a => !(p a))).length = l.length := by
  induction l with
  | nil => rfl
  | cons a rest ih =>
    cases h : p a <;> simp [List.filter_cons, h] <;> omega

theorem b2cCond_eq_not_b2bCond (ledgers : List Ledger) (v : Voucher) :
    b2cCond ledgers v = !(b2bCond ledgers v) := by
  rw [b2bCond, b2cCond]
  cases ledgersByName ledgers (voucherPartyName v) with
  | none => rfl
  | some l =>
    cases h1 : l.registrationType == "Registered" <;>
      cases h2 : l.gstin == "" <;> simp [bne, h1, h2]

/-- C7 (confirmed): the GSTR-1 classification is a partition — the b2b and
b2c bucket sizes sum to the number of Sales vouchers, every Sales voucher is
in exactly one of the two buckets, and no non-Sales voucher is in either. -/
theorem gstr1_partition (vouchers : List Voucher) (ledgers : List Ledger) :
    ((gstr1Data vouchers ledgers).1.length + (gstr1Data vouchers ledgers).2.length
        = (vouchers.filter isSalesVoucher).length) ∧
    (∀ v, v ∈ vouchers.filter isSalesVoucher →
      (v ∈ (gstr1Data vouchers ledgers).1 ∧ v ∉ (gstr1Data vouchers ledgers).2) ∨
      (v ∈ (gstr1Data vouchers ledgers).2 ∧ v ∉ (gstr1Data vouchers ledgers).1)) ∧
    (∀ v, isSalesVoucher v = false →
      v ∉ (gstr1Data vouchers ledgers).1 ∧ v ∉ (gstr1Data vouchers ledgers).2) := by
  have hfilt : (vouchers.filter isSalesVoucher).filter (b2cCond ledgers)
      = (vouchers.filter isSalesVoucher).filter (fun v => !(b2bCond ledgers v)) :=
    List.filter_congr (fun v _ => b2cCond_eq_not_b2bCond ledgers v)
  refine ⟨?_, fun v hv => ?_, fun v hv => ⟨fun hmem => ?_, fun hmem => ?_⟩⟩
  · show ((vouchers.filter isSalesVoucher).filter (b2bCond ledgers)).length +
        ((vouchers.filter isSalesVoucher).filter (b2cCond ledgers)).length
        = (vouchers.filter isSalesVoucher).length
    rw [hfilt]
    exact length_filter_partition _ _
  · by_cases hb : b2bCond ledgers v = true
    · refine Or.inl ⟨List.mem_filter.mpr ⟨hv, hb⟩, fun hc => ?_⟩
      have := (List.mem_filter.mp hc).2
      rw [b2cCond_eq_not_b2bCond, hb] at this
      cases this
    · have hb' : b2bCond ledgers v = false := by
        cases h : b2bCond ledgers v
        · rfl
        · exact absurd h hb
      refine Or.inr ⟨List.mem_filter.mpr ⟨hv, ?_⟩, fun hc => ?_⟩
      · rw [b2cCond_eq_not_b2bCond, hb']
        rfl
      · exact hb (List.mem_filter.mp hc).2
  · have := (List.mem_filter.mp (List.mem_filter.mp hmem).1).2
    rw [hv] at this
    cases this
  · have := (List.mem_filter.mp (List.mem_filter.mp hmem).1).2
    rw [hv] at this
    cases this

theorem gstr1_partition_demo :
    ((Voucher.sales ⟨"", "", "", "P", false, [], 0, 0, 0, 0, 0, ""⟩ ∈
        (gstr1Data [Voucher.sales ⟨"", "", "", "P", false, [], 0, 0, 0, 0, 0, ""⟩] []).1 ∧
      Voucher.sales ⟨"", "", "", "P", false, [], 0, 0, 0, 0, 0, ""⟩ ∉
        (gstr1Data [Voucher.sales ⟨"", "", "", "P", false, [], 0, 0, 0, 0, 0, ""⟩] []).2) ∨
     (Voucher.sales ⟨"", "", "", "P", false, [], 0, 0, 0, 0, 0, ""⟩ ∈
        (gstr1Data [Voucher.sales ⟨"", "", "", "P", false, [], 0, 0, 0, 0, 0, ""⟩] []).2 ∧
      Voucher.sales ⟨"", "", "", "P", false, [], 0, 0, 0, 0, 0, ""⟩ ∉
        (gstr1Data [Voucher.sales ⟨"", "", "", "P", false, [], 0, 0, 0, 0, 0, ""⟩] []).1)) :=
  (gstr1_partition [Voucher.sales ⟨"", "", "", "P", false, [], 0, 0, 0, 0, 0, ""⟩] []).2.1
    (Voucher.sales ⟨"", "", "", "P", false, [], 0, 0, 0, 0, 0, ""⟩) (by decide)

theorem ledgersByName_eq (ledgers : List Ledger) (n : String) :
    ledgersByName ledgers n = ledgers.reverse.find? (fun l => l.name == n) := by
  suffices h : ∀ acc : String → Option Ledger,
      ledgers.foldl (fun acc l => fun m => if m == l.name then some l else acc m) acc n
        = match ledgers.reverse.find? (fun l => l.name == n) with
          | some l => some l
          | none => acc n by
    rw [ledgersByName, h (fun _ => none)]
    cases ledgers.reverse.find? (fun l => l.name == n) <;> rfl
  induction ledgers with
  | nil => intro acc; rfl
  | cons l ls ih =>
    intro acc
    rw [List.foldl_cons, ih, List.reverse_cons, List.find?_append]
    cases hls : ls.reverse.find? (fun l => l.name == n) with
    | some x => rfl
    | none =>
      simp only [Option.none_or, List.find?_singleton]
      simp only [beq_iff_eq]
      rcases eq_or_ne n l.name with he | he
      · subst he
        simp
      · rw [if_neg he, if_neg (fun h => he h.symm)]

/-- C6 (counterexample to the claim as stated): the party "ACME" matches the
master ledger "Acme" case-insensitively, and that ledger is Registered with a
non-empty gstin, so the claim classifies the voucher b2b — but `gstr1Data`
looks the party up by its exact name and puts the voucher in b2c. -/
theorem gstr1_b2b_misses_case_insensitive_party :
    (([⟨"Acme", "", "Registered", "29X"⟩] : List Ledger).find?
        (fun l => jsToLower l.name == jsToLower "ACME")).isSome = true ∧
    (gstr1Data [Voucher.sales ⟨"", "", "", "ACME", false, [], 0, 0, 0, 0, 0, ""⟩]
        [⟨"Acme", "", "Registered", "29X"⟩]).1 = [] ∧
    (gstr1Data [Voucher.sales ⟨"", "", "", "ACME", false, [], 0, 0, 0, 0, 0, ""⟩]
        [⟨"Acme", "", "Registered", "29X"⟩]).2
      = [Voucher.sales ⟨"", "", "", "ACME", false, [], 0, 0, 0, 0, 0, ""⟩] := by
  exact ⟨by decide, by decide, by decide⟩

/-- C6 (amended): a voucher is in the b2b bucket iff it is a Sales voucher of
the input list whose party name equals some master ledger's name exactly
(case-sensitively, the last such ledger in the list providing the record)
with `registrationType = "Registered"` and a non-empty gstin; it is in the
b2c bucket iff it is a Sales voucher not satisfying that condition. -/
theorem gstr1_b2b_membership_exact (vouchers : List Voucher) (ledgers : List Ledger)
    (v : Voucher) :
    (v ∈ (gstr1Data vouchers ledgers).1 ↔
      v ∈ vouchers ∧ isSalesVoucher v = true ∧
        b2bExactSpec ledgers (voucherPartyName v) = true) ∧
    (v ∈ (gstr1Data vouchers ledgers).2 ↔
      v ∈ vouchers ∧ isSalesVoucher v = true ∧
        b2bExactSpec ledgers (voucherPartyName v) = false) := by
  have hb : b2bCond ledgers v = b2bExactSpec ledgers (voucherPartyName v) := by
    rw [b2bCond, b2bExactSpec, ledgersByName_eq]
  constructor
  · rw [show (gstr1Data vouchers ledgers).1
        = (vouchers.filter isSalesVoucher).filter (b2bCond ledgers) from rfl]
    simp [List.mem_filter, hb, and_assoc, and_comm]
  · rw [show (gstr1Data vouchers ledgers).2
        = (vouchers.filter isSalesVoucher).filter (b2cCond ledgers) from rfl]
    simp [List.mem_filter, b2cCond_eq_not_b2bCond, hb, and_assoc, and_comm]

theorem gstr1_b2b_membership_exact_demo :
    Voucher.sales ⟨"", "", "", "P", false, [], 0, 0, 0, 0, 0, ""⟩ ∈
      (gstr1Data [Voucher.sales ⟨"", "", "", "P", false, [], 0, 0, 0, 0, 0, ""⟩]
        [⟨"P", "", "Registered", "G1"⟩]).1 :=
  (gstr1_b2b_membership_exact
      [Voucher.sales ⟨"", "", "", "P", false, [], 0, 0, 0, 0, 0, ""⟩]
      [⟨"P", "", "Registered", "G1"⟩]
      (Voucher.sales ⟨"", "", "", "P", false, [], 0, 0, 0, 0, 0, ""⟩)).1.mpr
    ⟨by decide, by decide, by decide⟩

/-! ### Extraction retry semantics (claim C8) -/

theorem retryAux_attempts_le {α : Type} (attempts : Nat → Except String α)
    (maxRetries : Nat) (fuel attempt delay : Nat) (sleeps : List Nat) (made : Nat) :
    (retryAux attempts maxRetries fuel attempt delay sleeps made).attemptsMade ≤ made + fuel := by
  induction fuel generalizing attempt delay sleeps made with
  | zero => simp [retryAux]
  | succ n ih =>
    rw [retryAux]
    cases attempts attempt with
    | ok d =>
      show made + 1 ≤ made + (n + 1)
      omega
    | error e =>
      by_cases h : maxRetries ≤ attempt + 1
      · simp only [h, if_true]
        omega
      · simp only [h, if_false]
        exact le_trans (ih (attempt + 1) (delay * 2) (sleeps ++ [delay]) (made + 1)) (by omega)

/-- C8 (counterexample to the claim as stated): when all three attempts fail
with messages "e1", "e2", "e3", the error surfaced after the final attempt is
the fixed string "Failed to extract invoice data after multiple retries.",
not the last attempt's message "e3". -/
theorem retry_error_message_is_generic :
    (extractInvoiceDataWithRetry
        (fun j => if j = 0 then Except.error "e1" else if j = 1 then Except.error "e2"
                  else (Except.error "e3" : Except String ExtractedInvoiceData)) 3 1000).result
      = Except.error "Failed to extract invoice data after multiple retries." ∧
    (extractInvoiceDataWithRetry
        (fun j => if j = 0 then Except.error "e1" else if j = 1 then Except.error "e2"
                  else (Except.error "e3" : Except String ExtractedInvoiceData)) 3 1000).result
      ≠ Except.error "e3" := by
  exact ⟨by decide, by decide⟩

/-- C8 (amended): for each file, extraction is attempted at most 3 times with
backoff delays of 1000 ms then 2000 ms between consecutive attempts; after
the third failed attempt the run yields the fixed error message "Failed to
extract invoice data after multiple retries." (not the last attempt's
message), the file's status becomes error, and each pending file of the batch
is processed from its own extraction outcomes regardless of the other
files' failures. -/
theorem retry_semantics (attempts : Nat → Except String ExtractedInvoiceData)
    (oracle : MassUploadFile → Nat → Except String ExtractedInvoiceData)
    (files : List MassUploadFile) (i : Nat)
    (hfail : ∀ j, ∃ e, attempts j = Except.error e)
    (hi : i < files.length)
    (hpend : (files.getD i default).status = FileStatus.pending) :
    (∀ atts : Nat → Except String ExtractedInvoiceData,
      (extractInvoiceDataWithRetry atts 3 1000).attemptsMade ≤ 3) ∧
    (extractInvoiceDataWithRetry attempts 3 1000).attemptsMade = 3 ∧
    (extractInvoiceDataWithRetry attempts 3 1000).sleeps = [1000, 2000] ∧
    (extractInvoiceDataWithRetry attempts 3 1000).result
        = Except.error "Failed to extract invoice data after multiple retries." ∧
    ((startProcessing oracle files).getD i default
        = runExtraction (oracle (files.getD i default)) (files.getD i default)) ∧
    ((startProcessing oracle files).getD i default).status ≠ FileStatus.pending := by
  obtain ⟨e0, h0⟩ := hfail 0
  obtain ⟨e1, h1⟩ := hfail 1
  obtain ⟨e2, h2⟩ := hfail 2
  have hstep : (startProcessing oracle files).getD i default
      = runExtraction (oracle (files.getD i default)) (files.getD i default) := by
    rw [startProcessing]
    simp only [List.getD_eq_getElem?_getD, List.getElem?_map, List.getElem?_eq_getElem hi,
      Option.map_some', Option.getD_some]
    simp only [List.getD_eq_getElem?_getD, List.getElem?_eq_getElem hi, Option.getD_some] at hpend
    rw [hpend]
    rw [if_pos (by decide : (FileStatus.pending == FileStatus.pending) = true)]
  refine ⟨fun atts => ?_, ?_, ?_, ?_, hstep, ?_⟩
  · have := retryAux_attempts_le atts 3 3 0 1000 [] 0
    simpa [extractInvoiceDataWithRetry] using this
  · simp [extractInvoiceDataWithRetry, retryAux, h0, h1, h2]
  · simp [extractInvoiceDataWithRetry, retryAux, h0, h1, h2]
  · simp [extractInvoiceDataWithRetry, retryAux, h0, h1, h2]
  · rw [hstep, runExtraction]
    cases (extractInvoiceDataWithRetry (oracle (files.getD i default)) 3 1000).result with
    | ok d => simp
    | error msg => simp

theorem retry_semantics_demo :
    (extractInvoiceDataWithRetry
        (fun _ => (Except.error "boom" : Except String ExtractedInvoiceData)) 3 1000).sleeps
      = [1000, 2000] ∧
    ((startProcessing (fun _ _ => Except.error "boom")
        [⟨"f", "g", FileStatus.pending, none, none⟩]).getD 0 default).status
      ≠ FileStatus.pending :=
  ⟨(retry_semantics (fun _ => Except.error "boom") (fun _ _ => Except.error "boom")
      [⟨"f", "g", FileStatus.pending, none, none⟩] 0
      (fun _ => ⟨"boom", rfl⟩) (by decide) rfl).2.2.1,
   (retry_semantics (fun _ => Except.error "boom") (fun _ _ => Except.error "boom")
      [⟨"f", "g", FileStatus.pending, none, none⟩] 0
      (fun _ => ⟨"boom", rfl⟩) (by decide) rfl).2.2.2.2.2⟩

/-! ### Stock summary and valuation (claim C10) -/

theorem updateEntry_canon {V : Type} (names : List String) (hnd : names.Nodup)
    (f : String → V) (n : String) (g : V → V) :
    updateEntry (names.map (fun m => (m, f m))) n g
      = names.map (fun m => (m, if m = n then g (f m) else f m)) := by
  induction names with
  | nil => rfl
  | cons a rest ih =>
    obtain ⟨hna, hrest⟩ := List.nodup_cons.mp hnd
    rw [List.map_cons, List.map_cons, updateEntry]
    by_cases ha : a = n
    · subst ha
      rw [if_pos (beq_iff_eq.mpr rfl), if_pos rfl]
      congr 1
      refine List.map_congr_left fun m hm => ?_
      have hne : ¬ m = a := fun h => hna (h ▸ hm)
      rw [if_neg hne]
    · rw [if_neg (by simpa using ha), if_neg ha, ih hrest]

theorem updateEntry_items_fold {V : Type} (names : List String) (hnd : names.Nodup)
    (g : VoucherItem → V → V) (its : List VoucherItem) (f : String → V) :
    its.foldl (fun s it => updateEntry s it.name (g it)) (names.map fun m => (m, f m))
      = names.map fun m =>
          (m, (its.filter (fun it => it.name == m)).foldl (fun v it => g it v) (f m)) := by
  induction its generalizing f with
  | nil => simp
  | cons it rest ih =>
    rw [List.foldl_cons, updateEntry_canon names hnd f it.name (g it), ih]
    refine List.map_congr_left fun m hm => ?_
    by_cases hm2 : it.name = m
    · rw [if_pos hm2.symm]
      have hfc : List.filter (fun it2 => it2.name == m) (it :: rest)
          = it :: List.filter (fun it2 => it2.name == m) rest := by
        simp [List.filter_cons, hm2]
      rw [hfc, List.foldl_cons]
    · rw [if_neg (fun h => hm2 h.symm)]
      have hfc : List.filter (fun it2 => it2.name == m) (it :: rest)
          = List.filter (fun it2 => it2.name == m) rest := by
        simp [List.filter_cons, hm2]
      rw [hfc]

theorem foldInward (its : List VoucherItem) (mv : StockMovement) :
    its.foldl (fun v it => (⟨v.inward + it.qty, v.outward⟩ : StockMovement)) mv
      = ⟨mv.inward + (its.map VoucherItem.qty).sum, mv.outward⟩ := by
  induction its generalizing mv with
  | nil => simp
  | cons it rest ih => simp [ih, add_assoc]

theorem foldOutward (its : List VoucherItem) (mv : StockMovement) :
    its.foldl (fun v it => (⟨v.inward, v.outward + it.qty⟩ : StockMovement)) mv
      = ⟨mv.inward, mv.outward + (its.map VoucherItem.qty).sum⟩ := by
  induction its generalizing mv with
  | nil => simp
  | cons it rest ih => simp [ih, add_assoc]

theorem foldValPurchase (its : List VoucherItem) (a : ValuationAcc) :
    its.foldl (fun a it =>
        (⟨a.purchaseQty + it.qty, a.purchaseValue + it.taxableAmount, a.salesQty⟩ : ValuationAcc)) a
      = ⟨a.purchaseQty + (its.map VoucherItem.qty).sum,
         a.purchaseValue + (its.map VoucherItem.taxableAmount).sum, a.salesQty⟩ := by
  induction its generalizing a with
  | nil => simp
  | cons it rest ih => simp [ih, add_assoc]

theorem foldValSales (its : List VoucherItem) (a : ValuationAcc) :
    its.foldl (fun a it =>
        (⟨a.purchaseQty, a.purchaseValue, a.salesQty + it.qty⟩ : ValuationAcc)) a
      = ⟨a.purchaseQty, a.purchaseValue, a.salesQty + (its.map VoucherItem.qty).sum⟩ := by
  induction its generalizing a with
  | nil => simp
  | cons it rest ih => simp [ih, add_assoc]

theorem inwardQty_cons (v : Voucher) (vs : List Voucher) (n : String) :
    inwardQty (v :: vs) n = itemsQtySum (purchaseItemsOf v) n + inwardQty vs n := by
  simp [inwardQty, itemsQtySum, List.filter_append]

theorem outwardQty_cons (v : Voucher) (vs : List Voucher) (n : String) :
    outwardQty (v :: vs) n = itemsQtySum (salesItemsOf v) n + outwardQty vs n := by
  simp [outwardQty, itemsQtySum, List.filter_append]

theorem purchaseValueQ_cons (v : Voucher) (vs : List Voucher) (n : String) :
    purchaseValueQ (v :: vs) n = itemsTaxableSum (purchaseItemsOf v) n + purchaseValueQ vs n := by
  simp [purchaseValueQ, itemsTaxableSum, List.filter_append]

theorem setEntry_append {V : Type} (s : List (String × V)) (n : String) (v : V)
    (h : ∀ e ∈ s, e.1 ≠ n) : setEntry s n v = s ++ [(n, v)] := by
  induction s with
  | nil => rfl
  | cons e rest ih =>
    rw [setEntry, if_neg (by simpa using h e (List.mem_cons_self e rest)), List.cons_append,
      ih (fun e2 he2 => h e2 (List.mem_cons_of_mem e he2))]

theorem initFold {V : Type} (v0 : V) (items : List StockItem) :
    ∀ (s : List (String × V)), (∀ i ∈ items, ∀ e ∈ s, e.1 ≠ i.name) →
      (items.map StockItem.name).Nodup →
      items.foldl (fun s i => setEntry s i.name v0) s = s ++ items.map (fun i => (i.name, v0)) := by
  induction items with
  | nil => intro s _ _; simp
  | cons i rest ih =>
    intro s hdisj hnd
    rw [List.foldl_cons, setEntry_append s i.name v0
      (fun e he => hdisj i (List.mem_cons_self i rest) e he)]
    have hnd2 : i.name ∉ rest.map StockItem.name ∧ (rest.map StockItem.name).Nodup := by
      rw [List.map_cons] at hnd
      exact List.nodup_cons.mp hnd
    rw [ih (s ++ [(i.name, v0)]) ?_ hnd2.2]
    · simp
    · intro j hj e he
      rcases List.mem_append.mp he with hs | hone
      · exact hdisj j (List.mem_cons_of_mem i hj) e hs
      · have heq : e = (i.name, v0) := by simpa using hone
        subst heq
        intro hcontra
        have hc2 : i.name = j.name := hcontra
        refine hnd2.1 ?_
        rw [hc2]
        exact List.mem_map_of_mem StockItem.name hj

theorem stockSummaryStep_purchase (p : SalesPurchaseFields)
    (s : List (String × StockMovement)) :
    stockSummaryStep s (Voucher.purchase p)
      = p.items.foldl (fun s it =>
          updateEntry s it.name (fun m => ⟨m.inward + it.qty, m.outward⟩)) s := rfl

theorem stockSummaryStep_sales (sv : SalesPurchaseFields)
    (s : List (String × StockMovement)) :
    stockSummaryStep s (Voucher.sales sv)
      = sv.items.foldl (fun s it =>
          updateEntry s it.name (fun m => ⟨m.inward, m.outward + it.qty⟩)) s := rfl

theorem stockSummary_fold (names : List String) (hnd : names.Nodup)
    (vouchers : List Voucher) (f : String → StockMovement) :
    vouchers.foldl stockSummaryStep (names.map fun m => (m, f m))
      = names.map fun m =>
          (m, ⟨(f m).inward + inwardQty vouchers m, (f m).outward + outwardQty vouchers m⟩) := by
  induction vouchers generalizing f with
  | nil =>
    refine (List.map_congr_left fun m _ => ?_).symm
    simp [inwardQty, outwardQty]
  | cons v vs ih =>
    rw [List.foldl_cons]
    cases v with
    | purchase p =>
      rw [stockSummaryStep_purchase,
        updateEntry_items_fold names hnd (fun it m => ⟨m.inward + it.qty, m.outward⟩) p.items f,
        ih]
      refine List.map_congr_left fun m _ => ?_
      rw [foldInward, inwardQty_cons, outwardQty_cons]
      simp only [purchaseItemsOf, salesItemsOf, itemsQtySum]
      simp [add_assoc]
    | sales sv =>
      rw [stockSummaryStep_sales,
        updateEntry_items_fold names hnd (fun it m => ⟨m.inward, m.outward + it.qty⟩) sv.items f,
        ih]
      refine List.map_congr_left fun m _ => ?_
      rw [foldOutward, inwardQty_cons, outwardQty_cons]
      simp only [purchaseItemsOf, salesItemsOf, itemsQtySum]
      simp [add_assoc]
    | payment party account amount =>
      rw [show stockSummaryStep (names.map fun m => (m, f m)) (Voucher.payment party account amount)
          = names.map fun m => (m, f m) from rfl, ih]
      refine List.map_congr_left fun m _ => ?_
      rw [inwardQty_cons, outwardQty_cons]
      simp [purchaseItemsOf, salesItemsOf, itemsQtySum]
    | receipt party account amount =>
      rw [show stockSummaryStep (names.map fun m => (m, f m)) (Voucher.receipt party account amount)
          = names.map fun m => (m, f m) from rfl, ih]
      refine List.map_congr_left fun m _ => ?_
      rw [inwardQty_cons, outwardQty_cons]
      simp [purchaseItemsOf, salesItemsOf, itemsQtySum]
    | contra fromAccount toAccount amount =>
      rw [show stockSummaryStep (names.map fun m => (m, f m)) (Voucher.contra fromAccount toAccount amount)
          = names.map fun m => (m, f m) from rfl, ih]
      refine List.map_congr_left fun m _ => ?_
      rw [inwardQty_cons, outwardQty_cons]
      simp [purchaseItemsOf, salesItemsOf, itemsQtySum]
    | journal entries =>
      rw [show stockSummaryStep (names.map fun m => (m, f m)) (Voucher.journal entries)
          = names.map fun m => (m, f m) from rfl, ih]
      refine List.map_congr_left fun m _ => ?_
      rw [inwardQty_cons, outwardQty_cons]
      simp [purchaseItemsOf, salesItemsOf, itemsQtySum]

theorem stockValuationStep_purchase (p : SalesPurchaseFields)
    (s : List (String × ValuationAcc)) :
    stockValuationStep s (Voucher.purchase p)
      = p.items.foldl (fun s it =>
          updateEntry s it.name (fun a =>
            ⟨a.purchaseQty + it.qty, a.purchaseValue + it.taxableAmount, a.salesQty⟩)) s := rfl

theorem stockValuationStep_sales (sv : SalesPurchaseFields)
    (s : List (String × ValuationAcc)) :
    stockValuationStep s (Voucher.sales sv)
      = sv.items.foldl (fun s it =>
          updateEntry s it.name (fun a =>
            ⟨a.purchaseQty, a.purchaseValue, a.salesQty + it.qty⟩)) s := rfl

theorem stockValuation_fold (names : List String) (hnd : names.Nodup)
    (vouchers : List Voucher) (f : String → ValuationAcc) :
    vouchers.foldl stockValuationStep (names.map fun m => (m, f m))
      = names.map fun m =>
          (m, ⟨(f m).purchaseQty + inwardQty vouchers m,
               (f m).purchaseValue + purchaseValueQ vouchers m,
               (f m).salesQty + outwardQty vouchers m⟩) := by
  induction vouchers generalizing f with
  | nil =>
    refine (List.map_congr_left fun m _ => ?_).symm
    simp [inwardQty, outwardQty, purchaseValueQ]
  | cons v vs ih =>
    rw [List.foldl_cons]
    cases v with
    | purchase p =>
      rw [stockValuationStep_purchase,
        updateEntry_items_fold names hnd
          (fun it a => ⟨a.purchaseQty + it.qty, a.purchaseValue + it.taxableAmount, a.salesQty⟩)
          p.items f,
        ih]
      refine List.map_congr_left fun m _ => ?_
      rw [foldValPurchase, inwardQty_cons, outwardQty_cons, purchaseValueQ_cons]
      simp only [purchaseItemsOf, salesItemsOf, itemsQtySum, itemsTaxableSum]
      simp [add_assoc]
    | sales sv =>
      rw [stockValuationStep_sales,
        updateEntry_items_fold names hnd
          (fun it a => ⟨a.purchaseQty, a.purchaseValue, a.salesQty + it.qty⟩) sv.items f,
        ih]
      refine List.map_congr_left fun m _ => ?_
      rw [foldValSales, inwardQty_cons, outwardQty_cons, purchaseValueQ_cons]
      simp only [purchaseItemsOf, salesItemsOf, itemsQtySum, itemsTaxableSum]
      simp [add_assoc]
    | payment party account amount =>
      rw [show stockValuationStep (names.map fun m => (m, f m)) (Voucher.payment party account amount)
          = names.map fun m => (m, f m) from rfl, ih]
      refine List.map_congr_left fun m _ => ?_
      rw [inwardQty_cons, outwardQty_cons, purchaseValueQ_cons]
      simp [purchaseItemsOf, salesItemsOf, itemsQtySum, itemsTaxableSum]
    | receipt party account amount =>
      rw [show stockValuationStep (names.map fun m => (m, f m)) (Voucher.receipt party account amount)
          = names.map fun m => (m, f m) from rfl, ih]
      refine List.map_congr_left fun m _ => ?_
      rw [inwardQty_cons, outwardQty_cons, purchaseValueQ_cons]
      simp [purchaseItemsOf, salesItemsOf, itemsQtySum, itemsTaxableSum]
    | contra fromAccount toAccount amount =>
      rw [show stockValuationStep (names.map fun m => (m, f m)) (Voucher.contra fromAccount toAccount amount)
          = names.map fun m => (m, f m) from rfl, ih]
      refine List.map_congr_left fun m _ => ?_
      rw [inwardQty_cons, outwardQty_cons, purchaseValueQ_cons]
      simp [purchaseItemsOf, salesItemsOf, itemsQtySum, itemsTaxableSum]
    | journal entries =>
      rw [show stockValuationStep (names.map fun m => (m, f m)) (Voucher.journal entries)
          = names.map fun m => (m, f m) from rfl, ih]
      refine List.map_congr_left fun m _ => ?_
      rw [inwardQty_cons, outwardQty_cons, purchaseValueQ_cons]
      simp [purchaseItemsOf, salesItemsOf, itemsQtySum, itemsTaxableSum]

/-- C10 (confirmed): when the master stock item names are distinct (their
intended unique-key reading), the stock summary and stock valuation rows are
exactly the master stock items in master order; each row accumulates only
voucher line items whose name equals the master name exactly and
case-sensitively (a line item absent from the master list contributes to no
row and creates none), with `closing = inward - outward`, and the valuation
row's weighted-average fields derived from the same exact-name sums. -/
theorem stock_reports_master_only (vouchers : List Voucher) (stockItems : List StockItem)
    (hnd : (stockItems.map StockItem.name).Nodup) :
    stockSummaryData vouchers stockItems
      = stockItems.map (fun si =>
          ⟨si.name, inwardQty vouchers si.name, outwardQty vouchers si.name,
           inwardQty vouchers si.name - outwardQty vouchers si.name⟩) ∧
    stockValuationData vouchers stockItems
      = stockItems.map (fun si =>
          ⟨si.name, inwardQty vouchers si.name - outwardQty vouchers si.name,
           if 0 < inwardQty vouchers si.name
           then purchaseValueQ vouchers si.name / inwardQty vouchers si.name else 0,
           (inwardQty vouchers si.name - outwardQty vouchers si.name) *
             (if 0 < inwardQty vouchers si.name
              then purchaseValueQ vouchers si.name / inwardQty vouchers si.name else 0)⟩) := by
  have hdisj0 : ∀ (V : Type), ∀ i ∈ stockItems, ∀ e ∈ ([] : List (String × V)), e.1 ≠ i.name :=
    fun V i _ e he => absurd he (List.not_mem_nil e)
  constructor
  · rw [stockSummaryData, stockSummaryInit,
      initFold (⟨0, 0⟩ : StockMovement) stockItems [] (hdisj0 _) hnd]
    rw [List.nil_append, show stockItems.map (fun i => (i.name, (⟨0, 0⟩ : StockMovement)))
        = (stockItems.map StockItem.name).map (fun m => (m, (⟨0, 0⟩ : StockMovement)))
      from by rw [List.map_map]; rfl]
    rw [stockSummary_fold (stockItems.map StockItem.name) hnd vouchers (fun _ => ⟨0, 0⟩)]
    rw [List.map_map, List.map_map]
    refine List.map_congr_left fun si _ => ?_
    simp
  · rw [stockValuationData, stockValuationInit,
      initFold (⟨0, 0, 0⟩ : ValuationAcc) stockItems [] (hdisj0 _) hnd]
    rw [List.nil_append, show stockItems.map (fun i => (i.name, (⟨0, 0, 0⟩ : ValuationAcc)))
        = (stockItems.map StockItem.name).map (fun m => (m, (⟨0, 0, 0⟩ : ValuationAcc)))
      from by rw [List.map_map]; rfl]
    rw [stockValuation_fold (stockItems.map StockItem.name) hnd vouchers (fun _ => ⟨0, 0, 0⟩)]
    rw [List.map_map, List.map_map]
    refine List.map_congr_left fun si _ => ?_
    simp

theorem stock_reports_master_only_demo :
    stockSummaryData [] [⟨"w", 5⟩]
      = [⟨"w", inwardQty [] "w", outwardQty [] "w", inwardQty [] "w" - outwardQty [] "w"⟩] :=
  (stock_reports_master_only [] [⟨"w", 5⟩] (by decide)).1

/-! ### Trial balance closure (claim C1) -/

theorem lookupEntry_cons {V : Type} (a : String) (v : V) (rest : List (String × V))
    (k : String) :
    lookupEntry ((a, v) :: rest) k = if a == k then some v else lookupEntry rest k := by
  rw [lookupEntry, List.find?_cons]
  cases h : a == k <;> simp [h, lookupEntry]

theorem lookupEntry_updateEntry_isSome {V : Type} (b : List (String × V)) (n k : String)
    (g : V → V) :
    (lookupEntry (updateEntry b n g) k).isSome = (lookupEntry b k).isSome := by
  induction b with
  | nil => rfl
  | cons e rest ih =>
    obtain ⟨a, v⟩ := e
    rw [updateEntry]
    by_cases han : a == n
    · rw [if_pos han, lookupEntry_cons, lookupEntry_cons]
      by_cases hak : a == k
      · rw [if_pos hak, if_pos hak]
        rfl
      · rw [if_neg hak, if_neg hak]
    · rw [if_neg han, lookupEntry_cons, lookupEntry_cons]
      by_cases hak : a == k
      · rw [if_pos hak, if_pos hak]
      · rw [if_neg hak, if_neg hak, ih]

theorem ensureLedger_sums (b : List (String × BalEntry)) (n : String) :
    sumDebits (ensureLedger b n) = sumDebits b ∧ sumCredits (ensureLedger b n) = sumCredits b := by
  rw [ensureLedger]
  by_cases h : (n != "" && (lookupEntry b n).isNone) = true
  · rw [if_pos h]
    constructor <;> simp [sumDebits, sumCredits]
  · rw [if_neg h]
    exact ⟨rfl, rfl⟩

theorem ensureLedger_present (b : List (String × BalEntry)) (n : String) (hn : n ≠ "") :
    (lookupEntry (ensureLedger b n) n).isSome = true := by
  rw [ensureLedger]
  cases ho : lookupEntry b n with
  | some x =>
    rw [if_neg (by simp : ¬ (n != "" && (some x : Option BalEntry).isNone) = true), ho]
    rfl
  | none =>
    rw [if_pos (by simp [bne_iff_ne, hn] : (n != "" && (none : Option BalEntry).isNone) = true)]
    rw [lookupEntry, List.find?_append]
    have hb : b.find? (fun e => e.1 == n) = none := by
      rw [lookupEntry] at ho
      cases hf : b.find? (fun e => e.1 == n) with
      | none => rfl
      | some e =>
        rw [hf] at ho
        cases ho
    rw [hb, Option.none_or, List.find?_singleton, if_pos (beq_iff_eq.mpr rfl)]
    rfl

theorem ensureLedger_preserves (b : List (String × BalEntry)) (n k : String)
    (h : (lookupEntry b k).isSome = true) :
    (lookupEntry (ensureLedger b n) k).isSome = true := by
  rw [ensureLedger]
  by_cases hc : (n != "" && (lookupEntry b n).isNone) = true
  · rw [if_pos hc]
    rw [lookupEntry] at h ⊢
    rw [List.find?_append]
    cases hb : b.find? (fun e => e.1 == k) with
    | some x => simp
    | none =>
      rw [hb] at h
      cases h
  · rw [if_neg hc]
    exact h

theorem addDebit_sums (b : List (String × BalEntry)) (n : String) (x : ℚ)
    (h : (lookupEntry b n).isSome = true) :
    sumDebits (addDebit b n x) = sumDebits b + x ∧
    sumCredits (addDebit b n x) = sumCredits b := by
  induction b with
  | nil => cases h
  | cons e rest ih =>
    obtain ⟨a, v⟩ := e
    rw [addDebit, updateEntry]
    by_cases han : a == n
    · rw [if_pos han]
      constructor
      · simp only [sumDebits, List.map_cons, List.sum_cons]
        ring
      · simp only [sumCredits, List.map_cons, List.sum_cons]
    · rw [if_neg han]
      rw [lookupEntry_cons, if_neg han] at h
      have ih2 := ih h
      rw [addDebit] at ih2
      constructor
      · simp only [sumDebits, List.map_cons, List.sum_cons] at ih2 ⊢
        rw [ih2.1]
        ring
      · simp only [sumCredits, List.map_cons, List.sum_cons] at ih2 ⊢
        rw [ih2.2]

theorem addCredit_sums (b : List (String × BalEntry)) (n : String) (x : ℚ)
    (h : (lookupEntry b n).isSome = true) :
    sumCredits (addCredit b n x) = sumCredits b + x ∧
    sumDebits (addCredit b n x) = sumDebits b := by
  induction b with
  | nil => cases h
  | cons e rest ih =>
    obtain ⟨a, v⟩ := e
    rw [addCredit, updateEntry]
    by_cases han : a == n
    · rw [if_pos han]
      constructor
      · simp only [sumCredits, List.map_cons, List.sum_cons]
        ring
      · simp only [sumDebits, List.map_cons, List.sum_cons]
    · rw [if_neg han]
      rw [lookupEntry_cons, if_neg han] at h
      have ih2 := ih h
      rw [addCredit] at ih2
      constructor
      · simp only [sumCredits, List.map_cons, List.sum_cons] at ih2 ⊢
        rw [ih2.1]
        ring
      · simp only [sumDebits, List.map_cons, List.sum_cons] at ih2 ⊢
        rw [ih2.2]

theorem addDebit_present (b : List (String × BalEntry)) (n k : String) (x : ℚ)
    (h : (lookupEntry b k).isSome = true) :
    (lookupEntry (addDebit b n x) k).isSome = true := by
  rw [addDebit, lookupEntry_updateEntry_isSome]
  exact h

theorem addCredit_present (b : List (String × BalEntry)) (n k : String) (x : ℚ)
    (h : (lookupEntry b k).isSome = true) :
    (lookupEntry (addCredit b n x) k).isSome = true := by
  rw [addCredit, lookupEntry_updateEntry_isSome]
  exact h

theorem postJournalEntry_sums (b : List (String × BalEntry)) (e : JournalEntry)
    (he : e.ledger ≠ "") :
    sumDebits (postJournalEntry b e) = sumDebits b + e.debit ∧
    sumCredits (postJournalEntry b e) = sumCredits b + e.credit := by
  rw [postJournalEntry]
  rw [if_pos (bne_iff_ne.mpr he)]
  have hp : (lookupEntry (ensureLedger b e.ledger) e.ledger).isSome = true :=
    ensureLedger_present b e.ledger he
  have hd := addDebit_sums (ensureLedger b e.ledger) e.ledger e.debit hp
  have hp2 : (lookupEntry (addDebit (ensureLedger b e.ledger) e.ledger e.debit) e.ledger).isSome = true :=
    addDebit_present _ _ _ _ hp
  have hc := addCredit_sums _ e.ledger e.credit hp2
  have hes := ensureLedger_sums b e.ledger
  exact ⟨by rw [hc.2, hd.1, hes.1], by rw [hc.1, hd.2, hes.2]⟩

theorem journal_fold_sums (entries : List JournalEntry) (b : List (String × BalEntry))
    (hok : ∀ e ∈ entries, e.ledger ≠ "") :
    sumDebits (entries.foldl postJournalEntry b)
        = sumDebits b + (entries.map JournalEntry.debit).sum ∧
    sumCredits (entries.foldl postJournalEntry b)
        = sumCredits b + (entries.map JournalEntry.credit).sum := by
  induction entries generalizing b with
  | nil => simp
  | cons e rest ih =>
    rw [List.foldl_cons]
    have h1 := postJournalEntry_sums b e (hok e (List.mem_cons_self e rest))
    have h2 := ih (postJournalEntry b e) (fun e2 he2 => hok e2 (List.mem_cons_of_mem e he2))
    constructor
    · rw [h2.1, h1.1, List.map_cons, List.sum_cons]
      ring
    · rw [h2.2, h1.2, List.map_cons, List.sum_cons]
      ring

theorem ensure5_facts (b : List (String × BalEntry)) (party nm2 : String)
    (hparty : party ≠ "") (hnm2 : nm2 ≠ "") :
    sumDebits (ensureLedger (ensureLedger (ensureLedger (ensureLedger
        (ensureLedger b party) nm2) "IGST") "CGST") "SGST") = sumDebits b ∧
    sumCredits (ensureLedger (ensureLedger (ensureLedger (ensureLedger
        (ensureLedger b party) nm2) "IGST") "CGST") "SGST") = sumCredits b ∧
    (lookupEntry (ensureLedger (ensureLedger (ensureLedger (ensureLedger
        (ensureLedger b party) nm2) "IGST") "CGST") "SGST") party).isSome = true ∧
    (lookupEntry (ensureLedger (ensureLedger (ensureLedger (ensureLedger
        (ensureLedger b party) nm2) "IGST") "CGST") "SGST") nm2).isSome = true ∧
    (lookupEntry (ensureLedger (ensureLedger (ensureLedger (ensureLedger
        (ensureLedger b party) nm2) "IGST") "CGST") "SGST") "IGST").isSome = true ∧
    (lookupEntry (ensureLedger (ensureLedger (ensureLedger (ensureLedger
        (ensureLedger b party) nm2) "IGST") "CGST") "SGST") "CGST").isSome = true ∧
    (lookupEntry (ensureLedger (ensureLedger (ensureLedger (ensureLedger
        (ensureLedger b party) nm2) "IGST") "CGST") "SGST") "SGST").isSome = true := by
  refine ⟨?_, ?_, ?_, ?_, ?_, ?_, ?_⟩
  · rw [(ensureLedger_sums _ "SGST").1, (ensureLedger_sums _ "CGST").1,
      (ensureLedger_sums _ "IGST").1, (ensureLedger_sums _ nm2).1,
      (ensureLedger_sums _ party).1]
  · rw [(ensureLedger_sums _ "SGST").2, (ensureLedger_sums _ "CGST").2,
      (ensureLedger_sums _ "IGST").2, (ensureLedger_sums _ nm2).2,
      (ensureLedger_sums _ party).2]
  · exact ensureLedger_preserves _ _ _ (ensureLedger_preserves _ _ _
      (ensureLedger_preserves _ _ _ (ensureLedger_preserves _ _ _
        (ensureLedger_present b party hparty))))
  · exact ensureLedger_preserves _ _ _ (ensureLedger_preserves _ _ _
      (ensureLedger_preserves _ _ _ (ensureLedger_present _ nm2 hnm2)))
  · exact ensureLedger_preserves _ _ _ (ensureLedger_preserves _ _ _
      (ensureLedger_present _ "IGST" (by decide)))
  · exact ensureLedger_preserves _ _ _ (ensureLedger_present _ "CGST" (by decide))
  · exact ensureLedger_present _ "SGST" (by decide)

theorem postVoucher_sums (b : List (String × BalEntry)) (v : Voucher)
    (hok : voucherNamesOk v = true) :
    sumDebits (postVoucher b v) = sumDebits b + postedDebits v ∧
    sumCredits (postVoucher b v) = sumCredits b + postedCredits v := by
  cases v with
  | purchase p =>
    have hparty : p.party ≠ "" := by simpa [voucherNamesOk, bne_iff_ne] using hok
    obtain ⟨hD5, hC5, hpP, hpN, hpI, hpC, hpS⟩ := ensure5_facts b p.party "Purchases" hparty (by decide)
    simp only [postVoucher, postedDebits, postedCredits]
    have h6 := addCredit_sums _ p.party p.total hpP
    have hp6N := addCredit_present _ p.party _ p.total hpN
    have hp6I := addCredit_present _ p.party _ p.total hpI
    have hp6C := addCredit_present _ p.party _ p.total hpC
    have hp6S := addCredit_present _ p.party _ p.total hpS
    have h7 := addDebit_sums _ "Purchases" p.totalTaxableAmount hp6N
    have hp7I := addDebit_present _ "Purchases" _ p.totalTaxableAmount hp6I
    have hp7C := addDebit_present _ "Purchases" _ p.totalTaxableAmount hp6C
    have hp7S := addDebit_present _ "Purchases" _ p.totalTaxableAmount hp6S
    cases hI : p.isInterState
    · simp only [Bool.false_eq_true, if_false]
      have h8 := addDebit_sums _ "CGST" p.totalCgst hp7C
      have hp8S := addDebit_present _ "CGST" _ p.totalCgst hp7S
      have h9 := addDebit_sums _ "SGST" p.totalSgst hp8S
      constructor
      · linarith [h6.2, h7.1, h8.1, h9.1, hD5]
      · linarith [h6.1, h7.2, h8.2, h9.2, hC5]
    · simp only [if_true]
      have h8 := addDebit_sums _ "IGST" p.totalIgst hp7I
      constructor
      · linarith [h6.2, h7.1, h8.1, hD5]
      · linarith [h6.1, h7.2, h8.2, hC5]
  | sales s =>
    have hparty : s.party ≠ "" := by simpa [voucherNamesOk, bne_iff_ne] using hok
    obtain ⟨hD5, hC5, hpP, hpN, hpI, hpC, hpS⟩ := ensure5_facts b s.party "Sales" hparty (by decide)
    simp only [postVoucher, postedDebits, postedCredits]
    have h6 := addDebit_sums _ s.party s.total hpP
    have hp6N := addDebit_present _ s.party _ s.total hpN
    have hp6I := addDebit_present _ s.party _ s.total hpI
    have hp6C := addDebit_present _ s.party _ s.total hpC
    have hp6S := addDebit_present _ s.party _ s.total hpS
    have h7 := addCredit_sums _ "Sales" s.totalTaxableAmount hp6N
    have hp7I := addCredit_present _ "Sales" _ s.totalTaxableAmount hp6I
    have hp7C := addCredit_present _ "Sales" _ s.totalTaxableAmount hp6C
    have hp7S := addCredit_present _ "Sales" _ s.totalTaxableAmount hp6S
    cases hI : s.isInterState
    · simp only [Bool.false_eq_true, if_false]
      have h8 := addCredit_sums _ "CGST" s.totalCgst hp7C
      have hp8S := addCredit_present _ "CGST" _ s.totalCgst hp7S
      have h9 := addCredit_sums _ "SGST" s.totalSgst hp8S
      constructor
      · linarith [h6.1, h7.2, h8.2, h9.2, hD5]
      · linarith [h6.2, h7.1, h8.1, h9.1, hC5]
    · simp only [if_true]
      have h8 := addCredit_sums _ "IGST" s.totalIgst hp7I
      constructor
      · linarith [h6.1, h7.2, h8.2, hD5]
      · linarith [h6.2, h7.1, h8.1, hC5]
  | payment party account amount =>
    have hok2 : party ≠ "" ∧ account ≠ "" := by
      simpa [voucherNamesOk, bne_iff_ne] using hok
    simp only [postVoucher, postedDebits, postedCredits]
    have hpP : (lookupEntry (ensureLedger (ensureLedger b party) account) party).isSome = true :=
      ensureLedger_preserves _ _ _ (ensureLedger_present b party hok2.1)
    have hpA : (lookupEntry (ensureLedger (ensureLedger b party) account) account).isSome = true :=
      ensureLedger_present _ account hok2.2
    have hE : sumDebits (ensureLedger (ensureLedger b party) account) = sumDebits b ∧
        sumCredits (ensureLedger (ensureLedger b party) account) = sumCredits b :=
      ⟨by rw [(ensureLedger_sums _ account).1, (ensureLedger_sums _ party).1],
       by rw [(ensureLedger_sums _ account).2, (ensureLedger_sums _ party).2]⟩
    have h1 := addDebit_sums _ party amount hpP
    have hpA2 := addDebit_present _ party _ amount hpA
    have h2 := addCredit_sums _ account amount hpA2
    exact ⟨by linarith [h1.1, h2.2, hE.1], by linarith [h1.2, h2.1, hE.2]⟩
  | receipt party account amount =>
    have hok2 : party ≠ "" ∧ account ≠ "" := by
      simpa [voucherNamesOk, bne_iff_ne] using hok
    simp only [postVoucher, postedDebits, postedCredits]
    have hpP : (lookupEntry (ensureLedger (ensureLedger b party) account) party).isSome = true :=
      ensureLedger_preserves _ _ _ (ensureLedger_present b party hok2.1)
    have hpA : (lookupEntry (ensureLedger (ensureLedger b party) account) account).isSome = true :=
      ensureLedger_present _ account hok2.2
    have hE : sumDebits (ensureLedger (ensureLedger b party) account) = sumDebits b ∧
        sumCredits (ensureLedger (ensureLedger b party) account) = sumCredits b :=
      ⟨by rw [(ensureLedger_sums _ account).1, (ensureLedger_sums _ party).1],
       by rw [(ensureLedger_sums _ account).2, (ensureLedger_sums _ party).2]⟩
    have h1 := addCredit_sums _ party amount hpP
    have hpA2 := addCredit_present _ party _ amount hpA
    have h2 := addDebit_sums _ account amount hpA2
    exact ⟨by linarith [h1.2, h2.1, hE.1], by linarith [h1.1, h2.2, hE.2]⟩
  | contra fromAccount toAccount amount =>
    have hok2 : fromAccount ≠ "" ∧ toAccount ≠ "" := by
      simpa [voucherNamesOk, bne_iff_ne] using hok
    simp only [postVoucher, postedDebits, postedCredits]
    have hpF : (lookupEntry (ensureLedger (ensureLedger b fromAccount) toAccount) fromAccount).isSome = true :=
      ensureLedger_preserves _ _ _ (ensureLedger_present b fromAccount hok2.1)
    have hpT : (lookupEntry (ensureLedger (ensureLedger b fromAccount) toAccount) toAccount).isSome = true :=
      ensureLedger_present _ toAccount hok2.2
    have hE : sumDebits (ensureLedger (ensureLedger b fromAccount) toAccount) = sumDebits b ∧
        sumCredits (ensureLedger (ensureLedger b fromAccount) toAccount) = sumCredits b :=
      ⟨by rw [(ensureLedger_sums _ toAccount).1, (ensureLedger_sums _ fromAccount).1],
       by rw [(ensureLedger_sums _ toAccount).2, (ensureLedger_sums _ fromAccount).2]⟩
    have h1 := addCredit_sums _ fromAccount amount hpF
    have hpT2 := addCredit_present _ fromAccount _ amount hpT
    have h2 := addDebit_sums _ toAccount amount hpT2
    exact ⟨by linarith [h1.2, h2.1, hE.1], by linarith [h1.1, h2.2, hE.2]⟩
  | journal entries =>
    have hok2 : ∀ e ∈ entries, e.ledger ≠ "" := by
      simpa [voucherNamesOk, bne_iff_ne, List.all_eq_true] using hok
    simp only [postVoucher, postedDebits, postedCredits]
    exact journal_fold_sums entries b hok2

theorem voucherBalanced_posted (v : Voucher) (h : voucherBalanced v = true) :
    postedDebits v = postedCredits v := by
  cases v with
  | purchase p =>
    have := by simpa [voucherBalanced, beq_iff_eq] using h
    simp only [postedDebits, postedCredits]
    exact this.symm
  | sales s =>
    have := by simpa [voucherBalanced, beq_iff_eq] using h
    simp only [postedDebits, postedCredits]
    exact this
  | payment party account amount => rfl
  | receipt party account amount => rfl
  | contra fromAccount toAccount amount => rfl
  | journal entries =>
    have := by simpa [voucherBalanced, beq_iff_eq] using h
    simpa [postedDebits, postedCredits] using this

theorem vouchers_fold_delta (vouchers : List Voucher) (b : List (String × BalEntry))
    (h : ∀ v ∈ vouchers, voucherNamesOk v = true ∧ voucherBalanced v = true) :
    sumDebits (vouchers.foldl postVoucher b) - sumCredits (vouchers.foldl postVoucher b)
      = sumDebits b - sumCredits b := by
  induction vouchers generalizing b with
  | nil => rfl
  | cons v vs ih =>
    rw [List.foldl_cons]
    have hv := h v (List.mem_cons_self v vs)
    have h1 := postVoucher_sums b v hv.1
    have h2 := voucherBalanced_posted v hv.2
    have h3 := ih (postVoucher b v) (fun v2 hv2 => h v2 (List.mem_cons_of_mem v hv2))
    rw [h3, h1.1, h1.2, h2]
    ring

theorem init_sums (ledgers : List Ledger) :
    sumDebits (ledgers.foldl (fun b l => ensureLedger b l.name) []) = 0 ∧
    sumCredits (ledgers.foldl (fun b l => ensureLedger b l.name) []) = 0 := by
  suffices hgen : ∀ b, sumDebits (ledgers.foldl (fun b l => ensureLedger b l.name) b) = sumDebits b ∧
      sumCredits (ledgers.foldl (fun b l => ensureLedger b l.name) b) = sumCredits b by
    have := hgen []
    simpa [sumDebits, sumCredits] using this
  induction ledgers with
  | nil => intro b; exact ⟨rfl, rfl⟩
  | cons l ls ih =>
    intro b
    rw [List.foldl_cons]
    have h1 := ensureLedger_sums b l.name
    have h2 := ih (ensureLedger b l.name)
    exact ⟨by rw [h2.1, h1.1], by rw [h2.2, h1.2]⟩

theorem netEntry_spec (e : String × BalEntry) :
    (netEntry e).debit - (netEntry e).credit = e.2.debit - e.2.credit ∧
    0 ≤ (netEntry e).debit ∧ 0 ≤ (netEntry e).credit := by
  rw [netEntry]
  by_cases h1 : e.2.credit < e.2.debit
  · rw [if_pos h1]
    dsimp only
    exact ⟨by ring, by linarith, le_refl 0⟩
  · rw [if_neg h1]
    by_cases h2 : e.2.debit < e.2.credit
    · rw [if_pos h2]
      dsimp only
      exact ⟨by ring, le_refl 0, by linarith⟩
    · rw [if_neg h2]
      dsimp only
      have h3 : e.2.debit = e.2.credit := le_antisymm (not_lt.mp h1) (not_lt.mp h2)
      exact ⟨by rw [h3]; ring, le_refl 0, le_refl 0⟩

theorem net_filter_sums (b : List (String × BalEntry)) :
    ((((b.map netEntry).filter
        (fun r => decide (0 < r.debit) || decide (0 < r.credit))).map TBRow.debit).sum)
      - ((((b.map netEntry).filter
        (fun r => decide (0 < r.debit) || decide (0 < r.credit))).map TBRow.credit).sum)
      = sumDebits b - sumCredits b := by
  induction b with
  | nil => simp [sumDebits, sumCredits]
  | cons e rest ih =>
    rw [List.map_cons, List.filter_cons]
    obtain ⟨hdc, hd0, hc0⟩ := netEntry_spec e
    by_cases hk : (decide (0 < (netEntry e).debit) || decide (0 < (netEntry e).credit)) = true
    · rw [if_pos hk, List.map_cons, List.map_cons, List.sum_cons, List.sum_cons]
      simp only [sumDebits, sumCredits, List.map_cons, List.sum_cons] at ih ⊢
      linarith [ih, hdc]
    · rw [if_neg hk]
      have hle : (netEntry e).debit ≤ 0 ∧ (netEntry e).credit ≤ 0 := by
        simpa [not_or, not_lt] using hk
      have hz : (netEntry e).debit = 0 ∧ (netEntry e).credit = 0 :=
        ⟨le_antisymm hle.1 hd0, le_antisymm hle.2 hc0⟩
      simp only [sumDebits, sumCredits, List.map_cons, List.sum_cons] at ih ⊢
      have hzero : e.2.debit - e.2.credit = 0 := by
        rw [← hdc, hz.1, hz.2]
        ring
      linarith [ih, hzero]

theorem totals_foldl_pair (rows : List TBRow) (a c : ℚ) :
    rows.foldl (fun acc r => (acc.1 + r.debit, acc.2 + r.credit)) (a, c)
      = (a + (rows.map TBRow.debit).sum, c + (rows.map TBRow.credit).sum) := by
  induction rows generalizing a c with
  | nil => simp
  | cons r rest ih => simp [ih, add_assoc]

/-- C1 (amended): the trial balance closes — the emitted debit and credit
totals are equal — for every voucher set in which each voucher's postings
balance: every referenced party/account/journal-entry ledger name is
non-empty, each Journal voucher's entries have equal debit and credit sums,
and each Purchase/Sales voucher satisfies
`total = totalTaxableAmount + (inter-state ? totalIgst : totalCgst + totalSgst)`. -/
theorem trialBalance_closure_of_balanced_vouchers (vouchers : List Voucher)
    (ledgers : List Ledger)
    (h : ∀ v ∈ vouchers, voucherNamesOk v = true ∧ voucherBalanced v = true) :
    (trialBalanceData vouchers ledgers).2.1 = (trialBalanceData vouchers ledgers).2.2 := by
  simp only [trialBalanceData]
  rw [totals_foldl_pair]
  simp only [zero_add]
  have hinit := init_sums ledgers
  have hdelta := vouchers_fold_delta vouchers
    (ledgers.foldl (fun b l => ensureLedger b l.name) []) h
  have hnet := net_filter_sums (vouchers.foldl postVoucher
    (ledgers.foldl (fun b l => ensureLedger b l.name) []))
  linarith [hnet, hdelta, hinit.1, hinit.2]

/-- C1 (counterexample to the claim as stated): a single Journal voucher with
one entry debiting ledger "A" by 1 and crediting nothing produces a trial
balance whose emitted debit total is 1 while the credit total is 0 — the
closure does not hold for arbitrary voucher sets. -/
theorem trialBalance_unbalanced_journal_breaks_closure :
    (trialBalanceData [Voucher.journal [⟨"A", 1, 0⟩]] []).2.1
      ≠ (trialBalanceData [Voucher.journal [⟨"A", 1, 0⟩]] []).2.2 := by
  have hA : "A" ≠ "" := by decide
  have h1 : trialBalanceData [Voucher.journal [⟨"A", 1, 0⟩]] []
      = ([⟨"A", 1, 0⟩], 1, 0) := by
    norm_num [trialBalanceData, postVoucher, postJournalEntry, ensureLedger, addDebit,
      addCredit, updateEntry, lookupEntry, netEntry, hA, List.filter]
  rw [h1]
  norm_num

theorem trialBalance_closure_demo :
    (trialBalanceData
        [Voucher.purchase ⟨"", "", "", "X", false, [], 100, 9, 9, 0, 118, ""⟩,
         Voucher.payment "X" "Cash" 118] []).2.1
      = (trialBalanceData
        [Voucher.purchase ⟨"", "", "", "X", false, [], 100, 9, 9, 0, 118, ""⟩,
         Voucher.payment "X" "Cash" 118] []).2.2 :=
  trialBalance_closure_of_balanced_vouchers _ [] (by
    intro v hv
    rcases List.mem_cons.mp hv with h1 | hv2
    · subst h1
      constructor
      · decide
      · simp only [voucherBalanced]
        rw [if_neg (by simp : ¬ ((false : Bool) = true)), beq_iff_eq]
        norm_num
    · rcases List.mem_cons.mp hv2 with h1 | h3
      · subst h1
        exact ⟨by decide, rfl⟩
      · cases h3)
